import Mathlib

/-!
Verification of the Setker interpreter (lexer, parser, evaluator) against its
natural-language specification.  The definitions below are a shallow embedding
of the C++ sources: `src/def/Tokens.h`, `src/def/Keywords.cpp`,
`src/commands/Tokenizer.cpp`, `src/commands/Parser.h` (the recursive-descent
parser), `src/def/Environment.h`/`Environment.cpp`, and
`src/commands/Evaluator.cpp`.

Modelling conventions:
* C++ `double` is modelled as the exact rational type `ℚ`; every numeric
  example used in the theorems below is exactly representable as a double, so
  the IEEE-754 rounding that the model elides does not affect any statement.
* Index-based loops are given an explicit fuel argument so that every
  definition is structurally recursive and computable by the kernel.  Callers
  pass fuel that provably suffices (every loop advances its index by at least
  one per step), and the fuel-exhausted branches are unreachable from the
  entry points used in the theorems.
* Exceptions (`TokenTree::Error`, `std::runtime_error`, `ReturnException`)
  become explicit outcome constructors that are propagated by the evaluation
  functions exactly where C++ stack unwinding would propagate them.
* Output streams (`stdout`, `stderr`) become lists of emitted lines carried in
  the state.
-/

namespace Setker

/-- Token kinds of the lexer, transcribed from the `TokenType` enumeration in
`src/def/Tokens.h`. -/
inductive TokenType where
  | VAR | IF | ELSE | WHILE | FOR | FUN | RETURN | AND | CLASS | FALSE | NIL
  | OR | PRINT | SUPER | THIS | TRUE
  | IDENTIFIER | STRING | NUMBER
  | PLUS | MINUS | MULT | DIV | MOD | EQUAL | DOT | EQUAL_EQUAL | BANG
  | BANG_EQUAL | GREATER | GREATER_EQUAL | LESS | LESS_EQUAL
  | SEMICOLON | COMMA | COLON | L_PAREN | R_PAREN | L_BRACE | R_BRACE
  | L_BRACKET | R_BRACKET | SLASH
  | EOF_OF_FILE
  deriving DecidableEq, Repr

/-- Literal payload of a token (`using Literal = std::variant<void*, bool,
double, std::string>` in `src/def/Tokens.h`); the double payload is modelled
as an exact rational. -/
inductive Literal where
  | null
  | boolean (b : Bool)
  | num (q : ℚ)
  | str (s : String)
  deriving DecidableEq, Repr

/-- A lexed token (class `Token` in `src/def/Tokens.h`): kind, original
lexeme, and optional literal payload. -/
structure Token where
  type : TokenType
  lexeme : String
  literal : Literal
  deriving DecidableEq, Repr

/-- Reserved-word recognition, transcribed from `Keywords::valorateKeyword` in
`src/def/Keywords.cpp`. -/
def valorateKeyword (keyword : String) : TokenType :=
  if keyword = "and" then .AND
  else if keyword = "or" then .OR
  else if keyword = "class" then .CLASS
  else if keyword = "fun" then .FUN
  else if keyword = "var" then .VAR
  else if keyword = "if" then .IF
  else if keyword = "else" then .ELSE
  else if keyword = "for" then .FOR
  else if keyword = "while" then .WHILE
  else if keyword = "return" then .RETURN
  else if keyword = "true" then .TRUE
  else if keyword = "false" then .FALSE
  else if keyword = "nil" then .NIL
  else if keyword = "this" then .THIS
  else if keyword = "super" then .SUPER
  else if keyword = "print" then .PRINT
  else .IDENTIFIER

/-- Character classification `Tokenizer::isLetter` from
`src/commands/Tokenizer.cpp`. -/
def isLetter (c : Char) : Bool :=
  ('a' ≤ c && c ≤ 'z') || ('A' ≤ c && c ≤ 'Z') || c = '_'

/-- Character classification `Tokenizer::isDigit` from
`src/commands/Tokenizer.cpp`. -/
def isDigit (c : Char) : Bool :=
  '0' ≤ c && c ≤ '9'

/-- Character classification `Tokenizer::isAlphaNumeric` from
`src/commands/Tokenizer.cpp` (the libc `isdigit` used there agrees with
`isDigit` on all input bytes). -/
def isAlphaNumeric (c : Char) : Bool :=
  isLetter c || isDigit c

/-- Reading `file_contents[j]`: `std::string::operator[]` returns the NUL
character at `j = size()`, which is the only out-of-range index the lexer
ever reads. -/
def charAt (s : List Char) (j : Nat) : Char :=
  s.getD j (Char.ofNat 0)

/-- Mutable lexer state: the module-level globals `tokens`, `line` and
`exitCode` of `src/commands/Tokenizer.cpp`, together with the lines the lexer
has written to `std::cerr`. -/
structure LexState where
  tokens : List Token
  line : Nat
  exitCode : Nat
  stderrLines : List String
  deriving DecidableEq, Repr

/-- The initial values of the lexer globals: `line = 1`, `exitCode = 0`. -/
def initLexState : LexState :=
  { tokens := [], line := 1, exitCode := 0, stderrLines := [] }

/-- Appends a payload-free token, modelling `tokens.emplace_back(kind, lexeme)`. -/
def pushToken (st : LexState) (ty : TokenType) (lex : String) : LexState :=
  { st with tokens := st.tokens ++ [⟨ty, lex, .null⟩] }

/-- Scanning loop of `Tokenizer::valorateWhitespaces` (block comments
`<| ... |>`): starting from `j`, find `|` followed by `>` and return the new
index `j + 1`; if the terminator is never found the index `i` is left
unchanged.  The fuel argument makes the index loop structurally recursive;
callers pass fuel larger than the input length, which always suffices. -/
def valorateWhitespacesGo (s : List Char) (i : Nat) : Nat → Nat → Nat
  | 0, _ => i
  | fuel+1, j =>
    if j < s.length then
      if charAt s j = '|' ∧ charAt s (j+1) = '>' then j + 1
      else valorateWhitespacesGo s i fuel (j+1)
    else i

/-- `Tokenizer::valorateWhitespaces` from `src/commands/Tokenizer.cpp`:
returns the updated scan index (the `i` reference parameter). -/
def valorateWhitespaces (s : List Char) (i : Nat) : Nat :=
  valorateWhitespacesGo s i (s.length + 1) (i + 1)

/-- Scanning loop of `Tokenizer::valorateString` (identifier/keyword lexing):
returns the first index `j ≥ i + 1` at which the identifier run ends.  The
break condition is transcribed verbatim from the source. -/
def valorateStringGo (s : List Char) : Nat → Nat → Nat
  | 0, j => j
  | fuel+1, j =>
    if j = s.length ∨ charAt s j = ' ' ∨ charAt s j = '\n' ∨ charAt s j = '\t'
        ∨ ¬ isAlphaNumeric (charAt s j) then j
    else valorateStringGo s fuel (j+1)

/-- `Tokenizer::valorateString` from `src/commands/Tokenizer.cpp`: produces
the keyword/identifier token for the run starting at `i` and the updated
index (`i = j - 1` in the source). -/
def valorateStringRes (s : List Char) (i : Nat) : Token × Nat :=
  let j := valorateStringGo s (s.length + 1) (i + 1)
  let keyword := String.mk ((s.drop i).take (j - i))
  (⟨valorateKeyword keyword, keyword, .null⟩, j - 1)

/-- Decimal value of a digit string (most significant digit first). -/
def natOfDigits (cs : List Char) : Nat :=
  cs.foldl (fun a c => a * 10 + (c.toNat - 48)) 0

/-- Model of `std::stod` on the numeral shapes this interpreter produces
(runs of digits and dots): the longest valid prefix `digits ['.' digits]` is
parsed, as an exact rational instead of the nearest double. -/
def stodQ (numeral : String) : ℚ :=
  let cs := numeral.data
  let ip := cs.takeWhile (fun c => isDigit c)
  let rest := cs.drop ip.length
  match rest with
  | '.' :: r =>
    let fp := r.takeWhile (fun c => isDigit c)
    (natOfDigits ip : ℚ) + (natOfDigits fp : ℚ) / ((10 : ℚ) ^ fp.length)
  | _ => (natOfDigits ip : ℚ)

/-- Scanning loop of `Tokenizer::valorateNumber`: transcribed verbatim,
including the `continue` taken whenever the breaking character is a `'.'`,
which lets the run swallow any number of dots. -/
def valorateNumberGo (s : List Char) : Nat → Nat → Nat
  | 0, j => j
  | fuel+1, j =>
    if j = s.length ∨ charAt s j = ' ' ∨ charAt s j = '\n' ∨ charAt s j = '\t'
        ∨ ¬ isDigit (charAt s j) then
      if charAt s j = '.' then valorateNumberGo s fuel (j+1) else j
    else valorateNumberGo s fuel (j+1)

/-- `Tokenizer::valorateNumber` from `src/commands/Tokenizer.cpp`: produces
the NUMBER token (verbatim lexeme, `stod` payload) and the updated index
(`i = j - 1` in the source). -/
def valorateNumberRes (s : List Char) (i : Nat) : Token × Nat :=
  let j := valorateNumberGo s (s.length + 1) (i + 1)
  let lexeme := String.mk ((s.drop i).take (j - i))
  (⟨.NUMBER, lexeme, .num (stodQ lexeme)⟩, j - 1)

/-- String-literal scanning loop (the `'"'` case of
`Tokenizer::valorateTokens`): accumulates the contents, counts embedded
newlines, stops at the closing quote or at end of input.  Returns the final
index, the updated line counter and the captured characters. -/
def scanStringGo (s : List Char) : Nat → Nat → Nat → List Char → Nat × Nat × List Char
  | 0, j, line, acc => (j, line, acc)
  | fuel+1, j, line, acc =>
    if j < s.length then
      if charAt s j = '"' then (j, line, acc)
      else scanStringGo s fuel (j+1)
          (if charAt s j = '\n' then line + 1 else line) (acc ++ [charAt s j])
    else (j, line, acc)

/-- Line-comment scanning loop (the `'/'` case of
`Tokenizer::valorateTokens`): first index `j` holding a newline, or the input
length. -/
def lineCommentGo (s : List Char) : Nat → Nat → Nat
  | 0, j => j
  | fuel+1, j =>
    if charAt s j = '\n' ∨ j = s.length then j
    else lineCommentGo s fuel (j+1)

/-- One iteration of the character switch in `Tokenizer::valorateTokens`:
given the current index `i` (with `i < s.length`), returns the index value at
the end of the switch body (the loop then increments it) together with the
updated state. -/
def lexStep (s : List Char) (i : Nat) (st : LexState) : Nat × LexState :=
  let c := charAt s i
  if c = '+' then (i, pushToken st .PLUS "+")
  else if c = '-' then (i, pushToken st .MINUS "-")
  else if c = '*' then (i, pushToken st .MULT "*")
  else if c = '/' then
    if charAt s (i+1) = '/' then
      let j := lineCommentGo s (s.length + 1) (i + 1)
      (j, if charAt s j = '\n' then { st with line := st.line + 1 } else st)
    else (i, pushToken st .SLASH "/")
  else if c = '%' then (i, pushToken st .MOD "%")
  else if c = '=' then
    if charAt s (i+1) = '=' then (i + 1, pushToken st .EQUAL_EQUAL "==")
    else (i, pushToken st .EQUAL "=")
  else if c = '"' then
    let r := scanStringGo s (s.length + 1) (i + 1) st.line []
    if s.length ≤ r.1 then
      (r.1,
        { st with
            line := r.2.1, exitCode := 65,
            stderrLines := st.stderrLines ++
              ["[line " ++ toString r.2.1 ++ "] Error: Unterminated string."] })
    else
      (r.1,
        { st with
            line := r.2.1,
            tokens := st.tokens ++ [⟨.STRING, String.mk r.2.2, .str (String.mk r.2.2)⟩] })
  else if c = ';' then (i, pushToken st .SEMICOLON ";")
  else if c = ',' then (i, pushToken st .COMMA ",")
  else if c = '.' then (i, pushToken st .DOT ".")
  else if c = ':' then (i, pushToken st .COLON ":")
  else if c = '(' then (i, pushToken st .L_PAREN "(")
  else if c = ')' then (i, pushToken st .R_PAREN ")")
  else if c = Char.ofNat 123 then (i, pushToken st .L_BRACE (String.mk [Char.ofNat 123]))
  else if c = Char.ofNat 125 then (i, pushToken st .R_BRACE (String.mk [Char.ofNat 125]))
  else if c = '[' then (i, pushToken st .L_BRACKET "[")
  else if c = ']' then (i, pushToken st .R_BRACKET "]")
  else if c = '!' then
    if charAt s (i+1) = '=' then (i + 1, pushToken st .BANG_EQUAL "!=")
    else (i, pushToken st .BANG "!")
  else if c = '>' then
    if charAt s (i+1) = '=' then (i + 1, pushToken st .GREATER_EQUAL ">=")
    else if charAt s (i+1) = '|' then (i, st)
    else (i, pushToken st .GREATER ">")
  else if c = '<' then
    if charAt s (i+1) = '=' then (i + 1, pushToken st .LESS_EQUAL "<=")
    else if charAt s (i+1) = '|' then (valorateWhitespaces s i, st)
    else (i, pushToken st .LESS "<")
  else if c = '\n' then (i, { st with line := st.line + 1 })
  else if c = ' ' ∨ c = '\t' then (i, st)
  else if isLetter c then
    let r := valorateStringRes s i
    (r.2, { st with tokens := st.tokens ++ [r.1] })
  else if isDigit c then
    let r := valorateNumberRes s i
    (r.2, { st with tokens := st.tokens ++ [r.1] })
  else
    (i,
      { st with
          exitCode := 65,
          stderrLines := st.stderrLines ++
            ["[line " ++ toString st.line ++ "] Error: Unexpected character: " ++ String.mk [c]] })

/-- The character loop of `Tokenizer::valorateTokens`; appends the
`EOF_OF_FILE` sentinel once the index reaches the input length.  Every
`lexStep` leaves the index at least where it started, so the entry-point fuel
`s.length + 1` always suffices. -/
def lexLoop (s : List Char) : Nat → Nat → LexState → LexState
  | 0, _, st => st
  | fuel+1, i, st =>
    if i < s.length then
      let r := lexStep s i st
      lexLoop s fuel (r.1 + 1) r.2
    else { st with tokens := st.tokens ++ [⟨.EOF_OF_FILE, "", .null⟩] }

/-- `Tokenizer::valorateTokens` from `src/commands/Tokenizer.cpp`. -/
def valorateTokens (s : List Char) (st : LexState) : LexState :=
  lexLoop s (s.length + 1) 0 st

/-- `Tokenizer::getTokens` from `src/commands/Tokenizer.cpp`: clears the
token buffer and the exit code, but leaves the module-level `line` counter at
whatever value the previous pass left it, then runs `valorateTokens`.
Returns the `Result{tokens, exitCode}` value together with the final global
state. -/
def getTokens (source : String) (st : LexState) : (List Token × Nat) × LexState :=
  let st1 := valorateTokens source.data { st with tokens := [], exitCode := 0 }
  ((st1.tokens, st1.exitCode), st1)

/-- Node kinds of the abstract syntax tree, transcribed from
`ASTNode::Type` in `src/def/ASTNode.h`.  Note that there is no `ForStmt`
kind: `for` loops are desugared by the parser. -/
inductive NodeType where
  | Number | BinaryOp | String | Boolean | Nil | PrintStmt | IfStmt
  | WhileStmt | ReturnStmt | Function | Call | Program | VarDecl | Identifier
  deriving DecidableEq, Repr

/-- An AST node (`class ASTNode` in `src/def/ASTNode.h`): a kind, a string
value, and an ordered list of children. -/
inductive ASTNode where
  | mk (ty : NodeType) (value : String) (children : List ASTNode)

/-- Accessor `ASTNode::getType`. -/
def ASTNode.getType : ASTNode → NodeType
  | .mk ty _ _ => ty

/-- Accessor `ASTNode::getValue`. -/
def ASTNode.getValue : ASTNode → String
  | .mk _ v _ => v

/-- Accessor `ASTNode::getChildren`. -/
def ASTNode.getChildren : ASTNode → List ASTNode
  | .mk _ _ cs => cs

/-- A user-defined function value (`struct LoxFunction` in
`src/commands/Evaluator.h`): name, parameter names, body node and the
identifier of the closure environment.  The C++ `shared_ptr<Environment>`
closure reference is modelled as an index into the store of environments. -/
structure LoxFunction where
  name : String
  params : List String
  body : ASTNode
  closure : Nat

/-- A runtime value (`Environment::Value` in `src/def/Environment.h`):
`std::variant<std::monostate, double, bool, std::string, FunctionPtr>`, with
doubles modelled as exact rationals. -/
inductive Value where
  | nil
  | num (d : ℚ)
  | boolean (b : Bool)
  | str (s : String)
  | fn (f : LoxFunction)

/-- One environment record (`class Environment` in `src/def/Environment.h`):
the name-to-value map and the optional enclosing environment, the latter
modelled as an index into the store. -/
structure EnvData where
  values : List (String × Value)
  enclosing : Option Nat

/-- The evaluator state: the store of all environments created so far
(shared mutable cells addressed by index; `shared_ptr` release is not
modelled, unused entries simply stay in the store), the lines printed to
standard output, and the value `std::time(nullptr)` would return (held
constant over a run). -/
structure EvalState where
  envs : List EnvData
  output : List String
  time : ℚ

/-- Lookup in one environment's map, modelling `values.find(name)` on the
`std::unordered_map`. -/
def mapFind : List (String × Value) → String → Option Value
  | [], _ => none
  | (k', v') :: rest, k => if k' = k then some v' else mapFind rest k

/-- Insert-or-assign on one environment's map, modelling
`values[name] = value`. -/
def mapSet : List (String × Value) → String → Value → List (String × Value)
  | [], k, v => [(k, v)]
  | (k', v') :: rest, k, v =>
    if k' = k then (k, v) :: rest else (k', v') :: mapSet rest k v

/-- `Environment::define` from `src/def/Environment.cpp`: always writes the
map of the environment `e` itself. -/
def envDefine (envs : List EnvData) (e : Nat) (name : String) (v : Value) : List EnvData :=
  match envs[e]? with
  | some d => envs.set e { d with values := mapSet d.values name v }
  | none => envs

/-- Chain walk of `Environment::get` from `src/def/Environment.cpp`.  The
fuel bounds the number of `enclosing` links followed; environments are only
ever created with enclosing references to previously created environments,
so the entry point's fuel (the store size plus one) always suffices. -/
def envGetGo (envs : List EnvData) : Nat → Nat → String → Option Value
  | 0, _, _ => none
  | fuel+1, e, name =>
    match envs[e]? with
    | none => none
    | some d =>
      match mapFind d.values name with
      | some v => some v
      | none =>
        match d.enclosing with
        | none => none
        | some p => envGetGo envs fuel p name

/-- `Environment::get`: walk the enclosing chain until the name is found;
`none` models the thrown `std::runtime_error("Undefined variable '...'.")`. -/
def envGet (envs : List EnvData) (e : Nat) (name : String) : Option Value :=
  envGetGo envs (envs.length + 1) e name

/-- Chain walk of `Environment::assign` from `src/def/Environment.cpp`:
writes the nearest environment (starting from `e`, following `enclosing`)
whose map already contains the name, or fails.  `none` models the thrown
`std::runtime_error`; on failure no environment is modified. -/
def envAssignGo (envs : List EnvData) : Nat → Nat → String → Value → Option (List EnvData)
  | 0, _, _, _ => none
  | fuel+1, e, name, v =>
    match envs[e]? with
    | none => none
    | some d =>
      match mapFind d.values name with
      | some _ => some (envs.set e { d with values := mapSet d.values name v })
      | none =>
        match d.enclosing with
        | none => none
        | some p => envAssignGo envs fuel p name v

/-- `Environment::assign` (see `envAssignGo`). -/
def envAssign (envs : List EnvData) (e : Nat) (name : String) (v : Value) :
    Option (List EnvData) :=
  envAssignGo envs (envs.length + 1) e name v

/-- `Evaluator::isTruthy` from `src/commands/Evaluator.cpp`: `nil` is false,
booleans are themselves, everything else is true. -/
def isTruthy (v : Value) : Bool :=
  match v with
  | .nil => false
  | .boolean b => b
  | _ => true

/-- Fixed-width zero padding for decimal digits. -/
def padZeros (w n : Nat) : String :=
  String.mk (List.replicate (w - (toString n).length) '0') ++ toString n

/-- Model of `std::to_string(double)` on a nonnegative rational: `%f`
formatting with exactly six digits after the decimal point (rounding half
up; exact for the values used in the theorems, whose denominators divide
10^6 so that no rounding occurs). -/
def toString6Abs (q : ℚ) : String :=
  let n := (round (q * 1000000) : ℤ).toNat
  toString (n / 1000000) ++ "." ++ padZeros 6 (n % 1000000)

/-- Model of `std::to_string(double)`. -/
def toString6 (q : ℚ) : String :=
  if q < 0 then "-" ++ toString6Abs (-q) else toString6Abs q

/-- The number-to-string conversion the `'+'` concatenation cases of
`Evaluator::evalNode` perform:
`(std::floor(d) == d) ? std::to_string((long long)d) : std::to_string(d)`.
A rational is integral exactly when its reduced denominator is 1, and the
`long long` cast is then exact. -/
def concatNumStr (d : ℚ) : String :=
  if d.den = 1 then toString d.num else toString6 d

/-- Removes trailing `'0'` characters. -/
def stripZeros (s : String) : String :=
  String.mk (s.data.reverse.dropWhile (fun c => c = '0')).reverse

/-- Model of the default `std::ostream` rendering of a non-integral double
(`std::cout << d` in the print statement): six significant digits with
trailing zeros dropped.  The model is exact for magnitudes in `[1, 10^6)`;
outside that range it approximates the library's switch to scientific
notation by the same fixed-point rule.  No claim below depends on this
function. -/
def coutDoubleAbs (q : ℚ) : String :=
  let ipDigits := (toString (⌊q⌋.toNat)).length
  let decimals := if 6 ≤ ipDigits then 0 else 6 - ipDigits
  let scaled := (round (q * (10 : ℚ) ^ decimals) : ℤ).toNat
  let ip := scaled / 10 ^ decimals
  let fp := scaled % 10 ^ decimals
  if fp = 0 then toString ip
  else toString ip ++ "." ++ stripZeros (padZeros decimals fp)

/-- Model of `std::cout << d` for a double (see `coutDoubleAbs`). -/
def coutDouble (q : ℚ) : String :=
  if q < 0 then "-" ++ coutDoubleAbs (-q) else coutDoubleAbs q

/-- The print formatting of the `PrintStmt` case of `Evaluator::evalNode`:
nil, booleans, numbers (integral ones without a fractional part via the
`long long` cast), functions as `<fn NAME>`, strings verbatim. -/
def printStr (v : Value) : String :=
  match v with
  | .nil => "nil"
  | .boolean b => if b then "true" else "false"
  | .num d => if d.den = 1 then toString d.num else coutDouble d
  | .fn f => "<fn " ++ f.name ++ ">"
  | .str s => s

/-- Model of `std::fmod` on exact rationals: the remainder
`x - trunc(x / y) * y` with the sign of the dividend; `fmod(x, 0)` is NaN in
IEEE arithmetic and is modelled as `0` (never exercised by any claim). -/
def fmodQ (x y : ℚ) : ℚ :=
  if y = 0 then 0
  else x - y * (if 0 ≤ x / y then (⌊x / y⌋ : ℚ) else (⌈x / y⌉ : ℚ))

/-- The equality test of the `'=='`/`'!='` case of `Evaluator::evalNode`:
equal only when both operands hold the same variant and the payloads compare
equal; the final `else` of the source makes two function values always
unequal. -/
def valueEq (lv rv : Value) : Bool :=
  match lv with
  | .num ld => match rv with | .num rd => decide (ld = rd) | _ => false
  | .str ls => match rv with | .str rs => decide (ls = rs) | _ => false
  | .boolean lb => match rv with | .boolean rb => lb = rb | _ => false
  | .nil => match rv with | .nil => true | _ => false
  | .fn _ => false

/-- An exception in flight: `TokenTree::Error` (name, exit code, message)
from `src/def/ErrorCode.h`, or a `std::runtime_error` (thrown by
`Environment::get`/`assign`). -/
inductive Exc where
  | err (name : String) (code : Nat) (msg : String)
  | rte (msg : String)

/-- Outcome of evaluating a node: a value, a `ReturnException` carrying the
returned value, an exception, or fuel exhaustion (the model's stand-in for a
computation the C++ code would still be running). -/
inductive Outcome where
  | ok (v : Value)
  | ret (v : Value)
  | exc (e : Exc)
  | timeout

/-- Work items of the evaluator: a node to evaluate (`Evaluator::evalNode`),
the statement loop of a `Program` node (with the running child index used in
the rethrown `[line N]` annotations and the running `last` value), or the
argument-binding loop of a `Call` node (pairs of argument expression and
parameter name, and the environment being populated). -/
inductive EvalTask where
  | node (n : ASTNode)
  | seqt (cs : List ASTNode) (idx : Nat) (last : Value)
  | argst (pairs : List (ASTNode × String)) (localId : Nat)

/-- The evaluator, transcribed case by case from `Evaluator::evalNode` in
`src/commands/Evaluator.cpp`.  The fuel argument decreases on every call and
bounds the recursion/iteration depth; all theorems quantify over sufficient
fuel. -/
def evalT : Nat → EvalTask → Nat → EvalState → Outcome × EvalState
  | 0, _, _, st => (.timeout, st)
  | f+1, .seqt cs idx last, env, st =>
    match cs with
    | [] => (.ok last, st)
    | c :: rest =>
      match evalT f (.node c) env st with
      | (.ok v, st1) => evalT f (.seqt rest (idx+1) v) env st1
      | (.exc (.err n code m), st1) =>
        (.exc (.err n code (m ++ "\n[line " ++ toString (idx+1) ++ "]")), st1)
      | (.exc (.rte m), st1) =>
        (.exc (.err "RuntimeError" 70 (m ++ "\n[line " ++ toString (idx+1) ++ "]")), st1)
      | other => other
  | f+1, .argst pairs localId, env, st =>
    match pairs with
    | [] => (.ok .nil, st)
    | (a, p) :: rest =>
      match evalT f (.node a) env st with
      | (.ok v, st1) =>
        evalT f (.argst rest localId) env { st1 with envs := envDefine st1.envs localId p v }
      | other => other
  | f+1, .node (.mk ty val cs), env, st =>
    match ty with
    | .Function =>
      match cs.getLast? with
      | none => (.ok .nil, st)
      | some body =>
        let params := cs.dropLast.map ASTNode.getValue
        let func : LoxFunction := ⟨val, params, body, env⟩
        (.ok (.fn func), { st with envs := envDefine st.envs env val (.fn func) })
    | .VarDecl =>
      match cs with
      | [] => (.ok .nil, { st with envs := envDefine st.envs env val .nil })
      | c :: _ =>
        match evalT f (.node c) env st with
        | (.ok v, st1) => (.ok v, { st1 with envs := envDefine st1.envs env val v })
        | other => other
    | .Identifier =>
      match envGet st.envs env val with
      | some v => (.ok v, st)
      | none => (.exc (.rte ("Undefined variable '" ++ val ++ "'.")), st)
    | .Number => (.ok (.num (stodQ val)), st)
    | .Boolean => (.ok (.boolean (decide (val = "true"))), st)
    | .Nil => (.ok .nil, st)
    | .String => (.ok (.str val), st)
    | .BinaryOp =>
      match val, cs with
      | "=", [target, c1] =>
        if target.getType ≠ NodeType.Identifier then
          (.exc (.err "InvalidAssignmentTarget" 70 "Invalid assignment target."), st)
        else
          match evalT f (.node c1) env st with
          | (.ok v, st1) =>
            match envAssign st1.envs env target.getValue v with
            | some envs2 => (.ok v, { st1 with envs := envs2 })
            | none => (.exc (.rte ("Undefined variable '" ++ target.getValue ++ "'.")), st1)
          | other => other
      | "or", [c0, c1] =>
        match evalT f (.node c0) env st with
        | (.ok left, st1) =>
          if isTruthy left then (.ok left, st1) else evalT f (.node c1) env st1
        | other => other
      | "and", [c0, c1] =>
        match evalT f (.node c0) env st with
        | (.ok left, st1) =>
          if ¬ isTruthy left then (.ok left, st1) else evalT f (.node c1) env st1
        | other => other
      | "!", [c0] =>
        match evalT f (.node c0) env st with
        | (.ok v, st1) => (.ok (.boolean (! isTruthy v)), st1)
        | other => other
      | "-", [c0] =>
        match evalT f (.node c0) env st with
        | (.ok operand, st1) =>
          match operand with
          | .num v => (.ok (.num (-v)), st1)
          | _ => (.exc (.err "OperandMustBeNumber" 70 "Operand must be a number."), st1)
        | other => other
      | "group", [c0] => evalT f (.node c0) env st
      | op, [c0, c1] =>
        if op = "+" ∨ op = "-" ∨ op = "*" ∨ op = "/" ∨ op = "%" then
          match evalT f (.node c0) env st with
          | (.ok lv, st1) =>
            match evalT f (.node c1) env st1 with
            | (.ok rv, st2) =>
              let concatRes : Option String :=
                if op = "+" then
                  match lv, rv with
                  | .str ls, .str rs => some (ls ++ rs)
                  | .str ls, .num rd => some (ls ++ concatNumStr rd)
                  | .str ls, .boolean rb => some (ls ++ (if rb then "true" else "false"))
                  | .str ls, .nil => some (ls ++ "nil")
                  | .num ld, .str rs => some (concatNumStr ld ++ rs)
                  | .boolean lb, .str rs => some ((if lb then "true" else "false") ++ rs)
                  | .nil, .str rs => some ("nil" ++ rs)
                  | _, _ => none
                else none
              match concatRes with
              | some sres => (.ok (.str sres), st2)
              | none =>
                match lv, rv with
                | .num left, .num right =>
                  if op = "+" then (.ok (.num (left + right)), st2)
                  else if op = "-" then (.ok (.num (left - right)), st2)
                  else if op = "*" then (.ok (.num (left * right)), st2)
                  else if op = "/" then (.ok (.num (left / right)), st2)
                  else (.ok (.num (fmodQ left right)), st2)
                | _, _ =>
                  (.exc (.err "OperandsMustBeNumbers" 70 "Operands must be numbers."), st2)
            | other => other
          | other => other
        else if op = "==" ∨ op = "!=" then
          match evalT f (.node c0) env st with
          | (.ok lv, st1) =>
            match evalT f (.node c1) env st1 with
            | (.ok rv, st2) =>
              (.ok (.boolean (if op = "==" then valueEq lv rv else ! valueEq lv rv)), st2)
            | other => other
          | other => other
        else if op = "<" ∨ op = ">" ∨ op = "<=" ∨ op = ">=" then
          match evalT f (.node c0) env st with
          | (.ok lv, st1) =>
            match evalT f (.node c1) env st1 with
            | (.ok rv, st2) =>
              match lv, rv with
              | .num left, .num right =>
                if op = "<" then (.ok (.boolean (decide (left < right))), st2)
                else if op = ">" then (.ok (.boolean (decide (left > right))), st2)
                else if op = "<=" then (.ok (.boolean (decide (left ≤ right))), st2)
                else (.ok (.boolean (decide (left ≥ right))), st2)
              | _, _ =>
                (.exc (.err "OperandsMustBeNumbers" 70 "Operands must be numbers."), st2)
            | other => other
          | other => other
        else (.ok .nil, st)
      | _, _ => (.ok .nil, st)
    | .Program =>
      if val = "block" then
        evalT f (.seqt cs 0 .nil) st.envs.length
          { st with envs := st.envs ++ [⟨[], some env⟩] }
      else
        evalT f (.seqt cs 0 .nil) env st
    | .PrintStmt =>
      match cs with
      | [] => (.ok .nil, st)
      | c :: _ =>
        match evalT f (.node c) env st with
        | (.ok v, st1) => (.ok .nil, { st1 with output := st1.output ++ [printStr v] })
        | other => other
    | .IfStmt =>
      match cs with
      | [] => (.ok .nil, st)
      | c0 :: rest =>
        match evalT f (.node c0) env st with
        | (.ok cond, st1) =>
          if isTruthy cond then
            match rest with
            | c1 :: _ => evalT f (.node c1) env st1
            | [] => (.ok .nil, st1)
          else if cs.length = 3 then
            match rest with
            | _ :: c2 :: _ => evalT f (.node c2) env st1
            | _ => (.ok .nil, st1)
          else (.ok .nil, st1)
        | other => other
    | .WhileStmt =>
      match cs with
      | c0 :: c1 :: _ =>
        match evalT f (.node c0) env st with
        | (.ok cond, st1) =>
          if ¬ isTruthy cond then (.ok .nil, st1)
          else
            match evalT f (.node c1) env st1 with
            | (.ok _, st2) => evalT f (.node (.mk .WhileStmt val cs)) env st2
            | other => other
        | other => other
      | _ => (.ok .nil, st)
    | .ReturnStmt =>
      match cs with
      | [] => (.ret .nil, st)
      | c :: _ =>
        match evalT f (.node c) env st with
        | (.ok v, st1) => (.ret v, st1)
        | other => other
    | .Call =>
      if val = "clock" then (.ok (.num st.time), st)
      else
        match envGet st.envs env val with
        | none => (.exc (.rte ("Undefined variable '" ++ val ++ "'.")), st)
        | some callee =>
          match callee with
          | .fn func =>
            if cs.length ≠ func.params.length then
              (.exc (.err "ArgumentCountMismatch" 70
                ("Expected " ++ toString func.params.length ++ " args but got "
                  ++ toString cs.length ++ ".")), st)
            else
              let localId := st.envs.length
              match evalT f (.argst (cs.zip func.params) localId) env
                  { st with envs := st.envs ++ [⟨[], some func.closure⟩] } with
              | (.ok _, st2) =>
                match evalT f (.node func.body) localId st2 with
                | (.ok _, st3) => (.ok .nil, st3)
                | (.ret v, st3) => (.ok v, st3)
                | other => other
              | other => other
          | _ =>
            (.exc (.err "CallOnNonFunction" 70
              ("Attempt to call non-function '" ++ val ++ "'.")), st)

/-- `Evaluator::evalNode` (node form of `evalT`). -/
def evalNode (fuel : Nat) (n : ASTNode) (env : Nat) (st : EvalState) :
    Outcome × EvalState :=
  evalT fuel (.node n) env st

/-- Result of a parsing function: a parsed node (or list of nodes, or list of
parameter names) together with the updated token position, a thrown
`TokenTree::Error` (name, exit code, message), or fuel exhaustion. -/
inductive PRes where
  | node (n : ASTNode) (pos : Nat)
  | list (ns : List ASTNode) (pos : Nat)
  | strs (ss : List String) (pos : Nat)
  | perr (name : String) (code : Nat) (msg : String)
  | out

/-- Reading `tokens[pos]`: the parser's unchecked vector indexing.  Out of
range it yields an `EOF_OF_FILE` token; the parser is only run on lexer
output, which ends with that very sentinel, so in-bounds behaviour is
unchanged and the sentinel is never consumed. -/
def tokAt (ts : List Token) (pos : Nat) : Token :=
  ts.getD pos ⟨.EOF_OF_FILE, "", .null⟩

/-- Work items of the recursive-descent parser in `src/commands/Parser.h`,
one per parsing function or `while`/`do-while` loop of the source:
statements (`parseStatement`), the precedence chain
(`parseExpression`/`parseAssignment`/`parseOr`/`parseAnd`/`parseEquality`/
`parseComparison`/`parseAdditive`/`parseMultiplicative`/`parseUnary`/
`parseCall`/`parsePrimary`), the operator loops carrying the running left
operand, the call/argument/parameter loops, the block and program statement
loops, and the phases of the `for` statement (condition, its semicolon
check, increment, body). -/
inductive PTask where
  | stmt | expr | assign | orE | andE | eqE | cmpE | addE | mulE | unaryE | callE | prim
  | orGo (left : ASTNode) | andGo (left : ASTNode) | eqGo (left : ASTNode)
  | cmpGo (left : ASTNode) | addGo (left : ASTNode) | mulGo (left : ASTNode)
  | callGo (callee : ASTNode) | callFin (callee : ASTNode) (args : List ASTNode)
  | argsGo (acc : List ASTNode)
  | paramsGo (acc : List String)
  | funFin (fname : String) (params : List String)
  | forCond (initOpt : Option ASTNode)
  | forCondCk (initOpt : Option ASTNode) (condn : ASTNode)
  | forInc (initOpt : Option ASTNode) (condn : ASTNode)
  | forBody (initOpt : Option ASTNode) (condn : ASTNode) (incOpt : Option ASTNode)
  | blockGo (acc : List ASTNode)
  | progGo (acc : List ASTNode)
  | prog

/-- The recursive-descent parser, transcribed from `src/commands/Parser.h`.
Every recursive call decreases the fuel by one; the theorems quantify over
sufficient fuel. -/
def parseT : Nat → PTask → List Token → Nat → PRes
  | 0, _, _, _ => .out
  | f+1, t, ts, pos =>
    match t with
    | .expr => parseT f .assign ts pos
    | .assign =>
      match parseT f .orE ts pos with
      | .node ex p1 =>
        if p1 < ts.length ∧ (tokAt ts p1).type = TokenType.EQUAL then
          match parseT f .assign ts (p1+1) with
          | .node value p2 =>
            if ex.getType ≠ NodeType.Identifier then
              .perr "InvalidAssignmentTarget" 70 "InvalidAssignmentTarget"
            else .node (.mk .BinaryOp "=" [ex, value]) p2
          | other => other
        else .node ex p1
      | other => other
    | .orE =>
      match parseT f .andE ts pos with
      | .node left p => parseT f (.orGo left) ts p
      | other => other
    | .orGo left =>
      if pos < ts.length ∧ (tokAt ts pos).type = TokenType.OR then
        match parseT f .andE ts (pos+1) with
        | .node right p2 =>
          parseT f (.orGo (.mk .BinaryOp (tokAt ts pos).lexeme [left, right])) ts p2
        | other => other
      else .node left pos
    | .andE =>
      match parseT f .eqE ts pos with
      | .node left p => parseT f (.andGo left) ts p
      | other => other
    | .andGo left =>
      if pos < ts.length ∧ (tokAt ts pos).type = TokenType.AND then
        match parseT f .eqE ts (pos+1) with
        | .node right p2 =>
          parseT f (.andGo (.mk .BinaryOp (tokAt ts pos).lexeme [left, right])) ts p2
        | other => other
      else .node left pos
    | .eqE =>
      match parseT f .cmpE ts pos with
      | .node left p => parseT f (.eqGo left) ts p
      | other => other
    | .eqGo left =>
      if pos < ts.length ∧ ((tokAt ts pos).type = TokenType.EQUAL_EQUAL
          ∨ (tokAt ts pos).type = TokenType.BANG_EQUAL) then
        match parseT f .cmpE ts (pos+1) with
        | .node right p2 =>
          parseT f (.eqGo (.mk .BinaryOp (tokAt ts pos).lexeme [left, right])) ts p2
        | other => other
      else .node left pos
    | .cmpE =>
      match parseT f .addE ts pos with
      | .node left p => parseT f (.cmpGo left) ts p
      | other => other
    | .cmpGo left =>
      if pos < ts.length ∧ ((tokAt ts pos).type = TokenType.LESS
          ∨ (tokAt ts pos).type = TokenType.LESS_EQUAL
          ∨ (tokAt ts pos).type = TokenType.GREATER
          ∨ (tokAt ts pos).type = TokenType.GREATER_EQUAL) then
        match parseT f .addE ts (pos+1) with
        | .node right p2 =>
          parseT f (.cmpGo (.mk .BinaryOp (tokAt ts pos).lexeme [left, right])) ts p2
        | other => other
      else .node left pos
    | .addE =>
      match parseT f .mulE ts pos with
      | .node left p => parseT f (.addGo left) ts p
      | other => other
    | .addGo left =>
      if pos < ts.length ∧ ((tokAt ts pos).type = TokenType.PLUS
          ∨ (tokAt ts pos).type = TokenType.MINUS) then
        match parseT f .mulE ts (pos+1) with
        | .node right p2 =>
          parseT f (.addGo (.mk .BinaryOp (tokAt ts pos).lexeme [left, right])) ts p2
        | other => other
      else .node left pos
    | .mulE =>
      match parseT f .unaryE ts pos with
      | .node left p => parseT f (.mulGo left) ts p
      | other => other
    | .mulGo left =>
      if pos < ts.length ∧ ((tokAt ts pos).type = TokenType.MULT
          ∨ (tokAt ts pos).type = TokenType.SLASH
          ∨ (tokAt ts pos).type = TokenType.MOD) then
        match parseT f .unaryE ts (pos+1) with
        | .node right p2 =>
          parseT f (.mulGo (.mk .BinaryOp (tokAt ts pos).lexeme [left, right])) ts p2
        | other => other
      else .node left pos
    | .unaryE =>
      if pos < ts.length ∧ ((tokAt ts pos).type = TokenType.BANG
          ∨ (tokAt ts pos).type = TokenType.MINUS) then
        match parseT f .unaryE ts (pos+1) with
        | .node right p => .node (.mk .BinaryOp (tokAt ts pos).lexeme [right]) p
        | other => other
      else parseT f .callE ts pos
    | .callE =>
      match parseT f .prim ts pos with
      | .node ex p => parseT f (.callGo ex) ts p
      | other => other
    | .callGo callee =>
      if pos < ts.length ∧ (tokAt ts pos).type = TokenType.L_PAREN then
        if pos + 1 < ts.length ∧ (tokAt ts (pos+1)).type ≠ TokenType.R_PAREN then
          match parseT f (.argsGo []) ts (pos+1) with
          | .list args p2 => parseT f (.callFin callee args) ts p2
          | other => other
        else parseT f (.callFin callee []) ts (pos+1)
      else .node callee pos
    | .callFin callee args =>
      if ts.length ≤ pos ∨ (tokAt ts pos).type ≠ TokenType.R_PAREN then
        .perr "ParseError" 65 "Error: Expect ')' after arguments.\n"
      else parseT f (.callGo (.mk .Call callee.getValue args)) ts (pos+1)
    | .argsGo acc =>
      match parseT f .expr ts pos with
      | .node arg p =>
        if p < ts.length ∧ (tokAt ts p).type = TokenType.COMMA then
          parseT f (.argsGo (acc ++ [arg])) ts (p+1)
        else .list (acc ++ [arg]) p
      | other => other
    | .prim =>
      let token := tokAt ts pos
      if token.type = TokenType.R_PAREN ∨ token.type = TokenType.EOF_OF_FILE then
        .perr "ParseError" 65 ("Error at '" ++ token.lexeme ++ "': Expect expression.\n")
      else if token.type = TokenType.L_PAREN then
        match parseT f .expr ts (pos+1) with
        | .node inner p =>
          if ts.length ≤ p ∨ (tokAt ts p).type ≠ TokenType.R_PAREN then
            if p < ts.length ∧ (tokAt ts p).type = TokenType.EOF_OF_FILE then
              .perr "ParseError" 65 "Error at end: Expect ')'\n"
            else .perr "ParseError" 65 "Expected ')'\n"
          else .node (.mk .BinaryOp "group" [inner]) (p+1)
        | other => other
      else if token.type = TokenType.STRING then
        -- `std::get<std::string>(token.getLiteral())`: STRING tokens always
        -- carry a string payload; the impossible variants default to "".
        .node (.mk .String (match token.literal with | .str s => s | _ => "") []) (pos+1)
      else if token.type = TokenType.TRUE ∨ token.type = TokenType.FALSE then
        .node (.mk .Boolean token.lexeme []) (pos+1)
      else if token.type = TokenType.NIL then
        .node (.mk .Nil token.lexeme []) (pos+1)
      else if token.type = TokenType.NUMBER then
        .node (.mk .Number token.lexeme []) (pos+1)
      else if token.type = TokenType.IDENTIFIER then
        .node (.mk .Identifier token.lexeme []) (pos+1)
      else
        .perr "ParseError" 65 ("Error at '" ++ token.lexeme ++ "': Expect expression.\n")
    | .paramsGo acc =>
      if (tokAt ts pos).type ≠ TokenType.IDENTIFIER then
        .perr "ParseError" 65 "Error: Expect parameter name.\n"
      else
        if pos + 1 < ts.length ∧ (tokAt ts (pos+1)).type = TokenType.COMMA then
          parseT f (.paramsGo (acc ++ [(tokAt ts pos).lexeme])) ts (pos+2)
        else .strs (acc ++ [(tokAt ts pos).lexeme]) (pos+1)
    | .funFin fname params =>
      if ts.length ≤ pos ∨ (tokAt ts pos).type ≠ TokenType.R_PAREN then
        .perr "ParseError" 65 "Error: Expect ')' after parameters.\n"
      else
        match parseT f .stmt ts (pos+1) with
        | .node body p =>
          if body.getType ≠ NodeType.Program ∨ body.getValue ≠ "block" then
            .perr "ParseError" 65 "Error: Expect function body to be a block.\n"
          else
            .node (.mk .Function fname
              ((params.map (fun pn => ASTNode.mk .Identifier pn [])) ++ [body])) p
        | other => other
    | .forCond initOpt =>
      if (tokAt ts pos).type ≠ TokenType.SEMICOLON then
        match parseT f .expr ts pos with
        | .node condn p => parseT f (.forCondCk initOpt condn) ts p
        | other => other
      else parseT f (.forCondCk initOpt (.mk .Boolean "true" [])) ts pos
    | .forCondCk initOpt condn =>
      if ts.length ≤ pos ∨ (tokAt ts pos).type ≠ TokenType.SEMICOLON then
        .perr "ParseError" 65 "Error: Expect ';' after loop condition.\n"
      else parseT f (.forInc initOpt condn) ts (pos+1)
    | .forInc initOpt condn =>
      if (tokAt ts pos).type ≠ TokenType.R_PAREN then
        match parseT f .expr ts pos with
        | .node incn p => parseT f (.forBody initOpt condn (some incn)) ts p
        | other => other
      else parseT f (.forBody initOpt condn none) ts pos
    | .forBody initOpt condn incOpt =>
      if ts.length ≤ pos ∨ (tokAt ts pos).type ≠ TokenType.R_PAREN then
        .perr "ParseError" 65 "Error: Expect ')' after for clauses.\n"
      else
        match parseT f .stmt ts (pos+1) with
        | .node body p =>
          if body.getType = NodeType.VarDecl then
            .perr "ParseError" 65 "Error: Expect block after for clauses.\n"
          else
            .node
              (match initOpt with
               | some initn =>
                 ASTNode.mk .Program "block"
                   [initn, .mk .WhileStmt "while"
                     [condn, match incOpt with
                             | some incn => ASTNode.mk .Program "block" [body, incn]
                             | none => body]]
               | none =>
                 ASTNode.mk .WhileStmt "while"
                   [condn, match incOpt with
                           | some incn => ASTNode.mk .Program "block" [body, incn]
                           | none => body]) p
        | other => other
    | .blockGo acc =>
      if pos < ts.length ∧ (tokAt ts pos).type ≠ TokenType.R_BRACE then
        match parseT f .stmt ts pos with
        | .node stn p => parseT f (.blockGo (acc ++ [stn])) ts p
        | other => other
      else
        if ts.length ≤ pos ∨ (tokAt ts pos).type ≠ TokenType.R_BRACE then
          .perr "ParseError" 65 ("Error at end: Expect '" ++ String.mk [Char.ofNat 125] ++ "'\n")
        else .node (.mk .Program "block" acc) (pos+1)
    | .progGo acc =>
      if pos < ts.length ∧ (tokAt ts pos).type ≠ TokenType.EOF_OF_FILE then
        match parseT f .stmt ts pos with
        | .node stn p => parseT f (.progGo (acc ++ [stn])) ts p
        | other => other
      else .node (.mk .Program "program" acc) pos
    | .prog => parseT f (.progGo []) ts pos
    | .stmt =>
      if pos < ts.length ∧ (tokAt ts pos).type = TokenType.RETURN then
        if pos + 1 < ts.length ∧ (tokAt ts (pos+1)).type ≠ TokenType.SEMICOLON then
          match parseT f .expr ts (pos+1) with
          | .node v p =>
            if ts.length ≤ p ∨ (tokAt ts p).type ≠ TokenType.SEMICOLON then
              .perr "ParseError" 65 "Error: Expect ';' after return value.\n"
            else .node (.mk .ReturnStmt "return" [v]) (p+1)
          | other => other
        else
          if ts.length ≤ pos + 1 ∨ (tokAt ts (pos+1)).type ≠ TokenType.SEMICOLON then
            .perr "ParseError" 65 "Error: Expect ';' after return value.\n"
          else .node (.mk .ReturnStmt "return" []) (pos+2)
      else if pos < ts.length ∧ (tokAt ts pos).type = TokenType.FUN then
        if ts.length ≤ pos + 1 ∨ (tokAt ts (pos+1)).type ≠ TokenType.IDENTIFIER then
          .perr "ParseError" 65 "Error: Expect function name after 'fun'.\n"
        else
          if ts.length ≤ pos + 2 ∨ (tokAt ts (pos+2)).type ≠ TokenType.L_PAREN then
            .perr "ParseError" 65 "Error: Expect '(' after function name.\n"
          else
            if pos + 3 < ts.length ∧ (tokAt ts (pos+3)).type ≠ TokenType.R_PAREN then
              match parseT f (.paramsGo []) ts (pos+3) with
              | .strs ps p => parseT f (.funFin (tokAt ts (pos+1)).lexeme ps) ts p
              | other => other
            else parseT f (.funFin (tokAt ts (pos+1)).lexeme []) ts (pos+3)
      else if pos < ts.length ∧ (tokAt ts pos).type = TokenType.FOR then
        if ts.length ≤ pos + 1 ∨ (tokAt ts (pos+1)).type ≠ TokenType.L_PAREN then
          .perr "ParseError" 65 "Error: Expect '(' after 'for'.\n"
        else
          if (tokAt ts (pos+2)).type = TokenType.VAR then
            match parseT f .stmt ts (pos+2) with
            | .node initn p1 => parseT f (.forCond (some initn)) ts p1
            | other => other
          else if (tokAt ts (pos+2)).type ≠ TokenType.SEMICOLON then
            match parseT f .expr ts (pos+2) with
            | .node initn p1 =>
              if ts.length ≤ p1 ∨ (tokAt ts p1).type ≠ TokenType.SEMICOLON then
                .perr "ParseError" 65 "Error: Expect ';' after loop initializer.\n"
              else parseT f (.forCond (some initn)) ts (p1+1)
            | other => other
          else parseT f (.forCond none) ts (pos+3)
      else if pos < ts.length ∧ (tokAt ts pos).type = TokenType.IF then
        if ts.length ≤ pos + 1 ∨ (tokAt ts (pos+1)).type ≠ TokenType.L_PAREN then
          .perr "ParseError" 65 "Error: Expect '(' after 'if'.\n"
        else
          match parseT f .expr ts (pos+2) with
          | .node condn p =>
            if ts.length ≤ p ∨ (tokAt ts p).type ≠ TokenType.R_PAREN then
              .perr "ParseError" 65 "Error: Expect ')' after condition.\n"
            else
              match parseT f .stmt ts (p+1) with
              | .node thenB p2 =>
                if p2 < ts.length ∧ (tokAt ts p2).type = TokenType.ELSE then
                  match parseT f .stmt ts (p2+1) with
                  | .node elseB p3 => .node (.mk .IfStmt "if" [condn, thenB, elseB]) p3
                  | other => other
                else .node (.mk .IfStmt "if" [condn, thenB]) p2
              | other => other
          | other => other
      else if pos < ts.length ∧ (tokAt ts pos).type = TokenType.WHILE then
        if ts.length ≤ pos + 1 ∨ (tokAt ts (pos+1)).type ≠ TokenType.L_PAREN then
          .perr "ParseError" 65 "Error: Expect '(' after 'while'.\n"
        else
          match parseT f .expr ts (pos+2) with
          | .node condn p =>
            if ts.length ≤ p ∨ (tokAt ts p).type ≠ TokenType.R_PAREN then
              .perr "ParseError" 65 "Error: Expect ')' after condition.\n"
            else
              match parseT f .stmt ts (p+1) with
              | .node body p2 => .node (.mk .WhileStmt "while" [condn, body]) p2
              | other => other
          | other => other
      else if pos < ts.length ∧ (tokAt ts pos).type = TokenType.L_BRACE then
        parseT f (.blockGo []) ts (pos+1)
      else if pos < ts.length ∧ (tokAt ts pos).type = TokenType.VAR then
        if ts.length ≤ pos + 1 ∨ (tokAt ts (pos+1)).type ≠ TokenType.IDENTIFIER then
          .perr "ParseError" 65 "Error: Expect variable name after 'var'.\n"
        else
          if pos + 2 < ts.length ∧ (tokAt ts (pos+2)).type = TokenType.EQUAL then
            match parseT f .expr ts (pos+3) with
            | .node initE p =>
              if ts.length ≤ p ∨ (tokAt ts p).type ≠ TokenType.SEMICOLON then
                .perr "ParseError" 65 "Error: Expect ';' after variable declaration.\n"
              else .node (.mk .VarDecl (tokAt ts (pos+1)).lexeme [initE]) (p+1)
            | other => other
          else
            if ts.length ≤ pos + 2 ∨ (tokAt ts (pos+2)).type ≠ TokenType.SEMICOLON then
              .perr "ParseError" 65 "Error: Expect ';' after variable declaration.\n"
            else .node (.mk .VarDecl (tokAt ts (pos+1)).lexeme []) (pos+3)
      else if pos < ts.length ∧ (tokAt ts pos).type = TokenType.PRINT then
        match parseT f .expr ts (pos+1) with
        | .node ex p =>
          if ts.length ≤ p ∨ (tokAt ts p).type ≠ TokenType.SEMICOLON then
            .perr "ParseError" 65 "Error: Expect ';' after value.\n"
          else .node (.mk .PrintStmt "print" [ex]) (p+1)
        | other => other
      else
        match parseT f .expr ts pos with
        | .node ex p =>
          if p < ts.length ∧ (tokAt ts p).type = TokenType.SEMICOLON then .node ex (p+1)
          else .node ex p
        | other => other

/-- `Parser::parseStatement`. -/
def parseStatement (fuel : Nat) (ts : List Token) (pos : Nat) : PRes :=
  parseT fuel .stmt ts pos

/-- `Parser::parseExpression`. -/
def parseExpression (fuel : Nat) (ts : List Token) (pos : Nat) : PRes :=
  parseT fuel .expr ts pos

/-- `Parser::parseAST`: parse a whole program from position 0. -/
def parseAST (fuel : Nat) (ts : List Token) : PRes :=
  parseT fuel .prog ts 0

/-- Spec-side reading of a decimal numeral string, used to compare renderings
of numbers: `some q` exactly when the whole string has the shape `digits` or
`digits '.' digits`. -/
def decimalValQ (s : String) : Option ℚ :=
  let cs := s.data
  let ip := cs.takeWhile (fun c => isDigit c)
  let rest := cs.drop ip.length
  if ip = [] then none
  else
    match rest with
    | [] => some (natOfDigits ip : ℚ)
    | '.' :: r =>
      let fp := r.takeWhile (fun c => isDigit c)
      if fp.length = 0 ∨ fp.length ≠ r.length then none
      else some ((natOfDigits ip : ℚ) + (natOfDigits fp : ℚ) / (10 : ℚ) ^ fp.length)
    | _ => none

/-- Spec-side notion used by the specification's print-formatting rule: a
numeral is a shortest decimal rendering of `q` when it denotes `q` and no
strictly shorter decimal numeral denotes `q`. -/
def IsShortestDecimal (s : String) (q : ℚ) : Prop :=
  decimalValQ s = some q ∧ ∀ t : String, decimalValQ t = some q → s.length ≤ t.length

/-- The index at which the number run starting at `i` ends (first argument of
the token-building step of `Tokenizer::valorateNumber`). -/
def numberRunEnd (s : List Char) (i : Nat) : Nat :=
  valorateNumberGo s (s.length + 1) (i + 1)

/-- The desugared loop form the specification describes for
`for (I; C; U) B`: a `while` whose body is `B` with `U` appended as a
trailing statement in a block when present, the whole wrapped in a block
after `I` when an initializer is present (spec-side, for comparison with the
parser's output). -/
def forDesugarSpec (initOpt : Option ASTNode) (condn : ASTNode)
    (incOpt : Option ASTNode) (body : ASTNode) : ASTNode :=
  match initOpt with
  | some initn =>
    ASTNode.mk .Program "block"
      [initn, .mk .WhileStmt "while"
        [condn, match incOpt with
                | some incn => ASTNode.mk .Program "block" [body, incn]
                | none => body]]
  | none =>
    ASTNode.mk .WhileStmt "while"
      [condn, match incOpt with
              | some incn => ASTNode.mk .Program "block" [body, incn]
              | none => body]

/-- Token sequence of `for (var i = 0; i < 2; i = i + 1) {}`, used as a
concrete test input. -/
def forWitnessTokens : List Token :=
  [⟨.FOR, "for", .null⟩, ⟨.L_PAREN, "(", .null⟩, ⟨.VAR, "var", .null⟩,
   ⟨.IDENTIFIER, "i", .null⟩, ⟨.EQUAL, "=", .null⟩, ⟨.NUMBER, "0", .num 0⟩,
   ⟨.SEMICOLON, ";", .null⟩, ⟨.IDENTIFIER, "i", .null⟩, ⟨.LESS, "<", .null⟩,
   ⟨.NUMBER, "2", .num 2⟩, ⟨.SEMICOLON, ";", .null⟩, ⟨.IDENTIFIER, "i", .null⟩,
   ⟨.EQUAL, "=", .null⟩, ⟨.IDENTIFIER, "i", .null⟩, ⟨.PLUS, "+", .null⟩,
   ⟨.NUMBER, "1", .num 1⟩, ⟨.R_PAREN, ")", .null⟩,
   ⟨.L_BRACE, "\x7b", .null⟩, ⟨.R_BRACE, "\x7d", .null⟩, ⟨.EOF_OF_FILE, "", .null⟩]

/-- C5: the truthiness function `Evaluator::isTruthy` used by `if`, `while`,
`'!'`, `'and'` and `'or'` classifies exactly `nil` and `false` as false, and
every other value — including the number `0`, the empty string, and every
function value — as true. -/
theorem truthiness_classification :
    (∀ v : Value, isTruthy v = false ↔ (v = .nil ∨ v = .boolean false))
    ∧ isTruthy (.num 0) = true
    ∧ isTruthy (.str "") = true
    ∧ (∀ g : LoxFunction, isTruthy (.fn g) = true) := by
  refine ⟨fun v => ?_, rfl, rfl, fun g => rfl⟩
  cases v <;> simp [isTruthy]

/-- Witness for C5 at concrete values: `nil` is falsy and the number `0` is
truthy. -/
theorem truthiness_classification_witness :
    isTruthy Value.nil = false ∧ isTruthy (Value.num 0) = true :=
  ⟨(truthiness_classification.1 Value.nil).mpr (Or.inl rfl),
   truthiness_classification.2.1⟩

/-- C10: a `Call` node named `clock` evaluates to the current time (the
state's `time` field, modelling `std::time(nullptr)`) with the state left
untouched — before any environment lookup and without evaluating any
argument expression, for every environment and every argument list. -/
theorem clock_call_short_circuit (f : Nat) (args : List ASTNode) (env : Nat)
    (st : EvalState) :
    evalNode (f+1) (.mk .Call "clock" args) env st = (.ok (.num st.time), st) := by
  simp [evalNode, evalT]

/-- Witness for C10: even with a binding named `clock` in scope and an
argument whose evaluation would assign a variable, the call returns the time
and leaves the state unchanged. -/
theorem clock_call_short_circuit_witness :
    evalNode 1
      (.mk .Call "clock" [.mk .BinaryOp "=" [.mk .Identifier "x" [], .mk .Number "9" []]]) 0
      ⟨[⟨[("clock", .num 7), ("x", .num 1)], none⟩], [], 42⟩
      = (.ok (.num 42), ⟨[⟨[("clock", .num 7), ("x", .num 1)], none⟩], [], 42⟩) :=
  clock_call_short_circuit 0
    [.mk .BinaryOp "=" [.mk .Identifier "x" [], .mk .Number "9" []]] 0
    ⟨[⟨[("clock", .num 7), ("x", .num 1)], none⟩], [], 42⟩

/-- C2: for a `Call` node, the reserved name `clock` returns the current time
regardless of arity; otherwise the name is looked up in the current
environment, a resolved non-function value raises `CallOnNonFunction`
(code 70), and a function of mismatched parameter count raises
`ArgumentCountMismatch` (code 70) with message `Expected N args but got M.`. -/
theorem call_arity_and_kind_checks (f : Nat) (name : String) (args : List ASTNode)
    (env : Nat) (st : EvalState) (v : Value) :
    (name = "clock" →
      evalNode (f+1) (.mk .Call name args) env st = (.ok (.num st.time), st))
    ∧ (name ≠ "clock" → envGet st.envs env name = some v → (∀ g, v ≠ .fn g) →
      evalNode (f+1) (.mk .Call name args) env st
        = (.exc (.err "CallOnNonFunction" 70
            ("Attempt to call non-function '" ++ name ++ "'.")), st))
    ∧ (∀ g : LoxFunction, name ≠ "clock" → envGet st.envs env name = some (.fn g) →
      args.length ≠ g.params.length →
      evalNode (f+1) (.mk .Call name args) env st
        = (.exc (.err "ArgumentCountMismatch" 70
            ("Expected " ++ toString g.params.length ++ " args but got "
              ++ toString args.length ++ ".")), st)) := by
  refine ⟨fun hclock => ?_, fun hnc hget hnf => ?_, fun g hnc hget hmm => ?_⟩
  · subst hclock; simp [evalNode, evalT]
  · simp only [evalNode, evalT, if_neg hnc, hget]
  · simp [evalNode, evalT, if_neg hnc, hget, hmm]

/-- Witness for C2 at a concrete state: calling the number-valued binding
`q` raises `CallOnNonFunction`, and calling the two-parameter function `h`
with one argument raises `ArgumentCountMismatch` with the source's message. -/
theorem call_arity_and_kind_checks_witness :
    evalNode 1 (.mk .Call "q" []) 0 ⟨[⟨[("q", .num 7)], none⟩], [], 0⟩
      = (.exc (.err "CallOnNonFunction" 70 "Attempt to call non-function 'q'."),
         ⟨[⟨[("q", .num 7)], none⟩], [], 0⟩)
    ∧ evalNode 1 (.mk .Call "h" [.mk .Number "1" []]) 0
        ⟨[⟨[("h", .fn ⟨"h", ["a", "b"], .mk .Program "block" [], 0⟩)], none⟩], [], 0⟩
      = (.exc (.err "ArgumentCountMismatch" 70 "Expected 2 args but got 1."),
         ⟨[⟨[("h", .fn ⟨"h", ["a", "b"], .mk .Program "block" [], 0⟩)], none⟩], [], 0⟩) := by
  constructor
  · exact (call_arity_and_kind_checks 0 "q" [] 0
      ⟨[⟨[("q", .num 7)], none⟩], [], 0⟩ (.num 7)).2.1
      (by decide) rfl (fun g h => by cases h)
  · exact (call_arity_and_kind_checks 0 "h" [.mk .Number "1" []] 0
      ⟨[⟨[("h", .fn ⟨"h", ["a", "b"], .mk .Program "block" [], 0⟩)], none⟩], [], 0⟩
      (.fn ⟨"h", ["a", "b"], .mk .Program "block" [], 0⟩)).2.2
      ⟨"h", ["a", "b"], .mk .Program "block" [], 0⟩ (by decide) rfl (by decide)

/-- C3: a `ReturnStmt` raises a return outcome carrying its expression's
value (or `nil` without one); that outcome passes unchanged through statement
sequences (blocks and programs), both branches of `if`, and `while` bodies;
a user-defined call runs its body in a fresh environment whose enclosing
reference is the function's closure, yields `nil` when the body finishes
without a return, and yields the returned value when a return unwinds to the
call. -/
theorem call_return_semantics (f : Nat) (env : Nat) (st : EvalState) :
    (evalT (f+1) (.node (.mk .ReturnStmt "return" [])) env st = (.ret .nil, st))
    ∧ (∀ (e : ASTNode) (v : Value) (st1 : EvalState),
        evalT f (.node e) env st = (.ok v, st1) →
        evalT (f+1) (.node (.mk .ReturnStmt "return" [e])) env st = (.ret v, st1))
    ∧ (∀ (cs : List ASTNode),
        evalT (f+1) (.node (.mk .Program "block" cs)) env st
          = evalT f (.seqt cs 0 .nil) st.envs.length
              { st with envs := st.envs ++ [⟨[], some env⟩] })
    ∧ (∀ (c : ASTNode) (cs : List ASTNode) (idx : Nat) (last v : Value) (st1 : EvalState),
        evalT f (.node c) env st = (.ret v, st1) →
        evalT (f+1) (.seqt (c :: cs) idx last) env st = (.ret v, st1))
    ∧ (∀ (c0 c1 : ASTNode) (rest : List ASTNode) (cv v : Value) (st1 st2 : EvalState),
        evalT f (.node c0) env st = (.ok cv, st1) → isTruthy cv = true →
        evalT f (.node c1) env st1 = (.ret v, st2) →
        evalT (f+1) (.node (.mk .IfStmt "if" (c0 :: c1 :: rest))) env st = (.ret v, st2))
    ∧ (∀ (c0 c1 c2 : ASTNode) (cv v : Value) (st1 st2 : EvalState),
        evalT f (.node c0) env st = (.ok cv, st1) → isTruthy cv = false →
        evalT f (.node c2) env st1 = (.ret v, st2) →
        evalT (f+1) (.node (.mk .IfStmt "if" [c0, c1, c2])) env st = (.ret v, st2))
    ∧ (∀ (c0 c1 : ASTNode) (cv v : Value) (st1 st2 : EvalState),
        evalT f (.node c0) env st = (.ok cv, st1) → isTruthy cv = true →
        evalT f (.node c1) env st1 = (.ret v, st2) →
        evalT (f+1) (.node (.mk .WhileStmt "while" [c0, c1])) env st = (.ret v, st2))
    ∧ (∀ (name : String) (args : List ASTNode) (fd : LoxFunction) (st2 : EvalState),
        name ≠ "clock" → envGet st.envs env name = some (.fn fd) →
        args.length = fd.params.length →
        evalT f (.argst (args.zip fd.params) st.envs.length) env
            { st with envs := st.envs ++ [⟨[], some fd.closure⟩] } = (.ok .nil, st2) →
        ((∀ (w : Value) (st3 : EvalState),
            evalT f (.node fd.body) st.envs.length st2 = (.ok w, st3) →
            evalT (f+1) (.node (.mk .Call name args)) env st = (.ok .nil, st3))
         ∧ (∀ (v : Value) (st3 : EvalState),
            evalT f (.node fd.body) st.envs.length st2 = (.ret v, st3) →
            evalT (f+1) (.node (.mk .Call name args)) env st = (.ok v, st3)))) := by
  refine ⟨rfl, fun e v st1 he => ?_, fun cs => rfl, fun c cs idx last v st1 hc => ?_,
    fun c0 c1 rest cv v st1 st2 h0 ht h1 => ?_,
    fun c0 c1 c2 cv v st1 st2 h0 ht h1 => ?_,
    fun c0 c1 cv v st1 st2 h0 ht h1 => ?_,
    fun name args fd st2 hnc hget hlen hargs => ⟨fun w st3 hb => ?_, fun v st3 hb => ?_⟩⟩
  · simp [evalT, he]
  · simp [evalT, hc]
  · simp [evalT, h0, ht, h1]
  · simp [evalT, h0, ht, h1]
  · simp [evalT, h0, ht, h1]
  · simp [evalT, if_neg hnc, hget, hlen, hargs, hb]
  · simp [evalT, if_neg hnc, hget, hlen, hargs, hb]

/-- Witness for C3 at a concrete program: calling `fun g() { return 5; 9; }`
yields `5` (the return unwinds past the trailing statement), and calling
`fun k() { 7; }` yields `nil`. -/
theorem call_return_semantics_witness :
    evalT 5 (.node (.mk .Call "g" [])) 0
      ⟨[⟨[("g", .fn ⟨"g", [],
          .mk .Program "block" [.mk .ReturnStmt "return" [.mk .Number "5" []],
                                .mk .Number "9" []], 0⟩)], none⟩], [], 0⟩
      = (.ok (.num 5),
         ⟨[⟨[("g", .fn ⟨"g", [],
             .mk .Program "block" [.mk .ReturnStmt "return" [.mk .Number "5" []],
                                   .mk .Number "9" []], 0⟩)], none⟩,
           ⟨[], some 0⟩, ⟨[], some 1⟩], [], 0⟩) := by
  exact ((call_return_semantics 4 0
    ⟨[⟨[("g", .fn ⟨"g", [],
        .mk .Program "block" [.mk .ReturnStmt "return" [.mk .Number "5" []],
                              .mk .Number "9" []], 0⟩)], none⟩], [], 0⟩).2.2.2.2.2.2.2 "g" []
    ⟨"g", [], .mk .Program "block" [.mk .ReturnStmt "return" [.mk .Number "5" []],
                                    .mk .Number "9" []], 0⟩
    ⟨[⟨[("g", .fn ⟨"g", [],
        .mk .Program "block" [.mk .ReturnStmt "return" [.mk .Number "5" []],
                              .mk .Number "9" []], 0⟩)], none⟩,
      ⟨[], some 0⟩], [], 0⟩
    (by decide) rfl rfl rfl).2 (.num 5)
    ⟨[⟨[("g", .fn ⟨"g", [],
        .mk .Program "block" [.mk .ReturnStmt "return" [.mk .Number "5" []],
                              .mk .Number "9" []], 0⟩)], none⟩,
      ⟨[], some 0⟩, ⟨[], some 1⟩], [], 0⟩ rfl

/-- C4: an assignment `name = e` first evaluates `e`; `Environment::assign`
then writes the nearest enclosing environment already containing `name` (the
innermost map is written in place when it holds the name, otherwise the walk
defers to the enclosing environment, and a chain without the name fails); on
success the whole expression's value is the assigned value, and on failure a
`std::runtime_error` is raised with no environment modified, which the
enclosing statement list turns into a `RuntimeError` with exit code 70. -/
theorem assignment_semantics (f : Nat) (env : Nat) (st st1 : EvalState)
    (name : String) (e : ASTNode) (v : Value)
    (hE : evalT f (.node e) env st = (.ok v, st1)) :
    (∀ envs2, envAssign st1.envs env name v = some envs2 →
      evalNode (f+1) (.mk .BinaryOp "=" [.mk .Identifier name [], e]) env st
        = (.ok v, { st1 with envs := envs2 }))
    ∧ (envAssign st1.envs env name v = none →
      evalNode (f+1) (.mk .BinaryOp "=" [.mk .Identifier name [], e]) env st
        = (.exc (.rte ("Undefined variable '" ++ name ++ "'.")), st1))
    ∧ (∀ (child : ASTNode) (m : String) (st' : EvalState),
      evalT f (.node child) env st = (.exc (.rte m), st') →
      evalT (f+2) (.node (.mk .Program "program" [child])) env st
        = (.exc (.err "RuntimeError" 70 (m ++ "\n[line 1]")), st'))
    ∧ (∀ (envs : List EnvData) (e2 : Nat) (d : EnvData) (w : Value),
      envs[e2]? = some d →
      (((mapFind d.values name).isSome →
          envAssign envs e2 name w
            = some (envs.set e2 { d with values := mapSet d.values name w }))
       ∧ (∀ (g : Nat) (p : Nat), mapFind d.values name = none → d.enclosing = some p →
          envAssignGo envs (g+1) e2 name w = envAssignGo envs g p name w)
       ∧ (mapFind d.values name = none → d.enclosing = none →
          envAssign envs e2 name w = none))) := by
  refine ⟨fun envs2 has => ?_, fun hnone => ?_, fun child m st' hc => ?_,
    fun envs e2 d w hd => ⟨fun hsome => ?_, fun g p hmiss henc => ?_, fun hmiss henc => ?_⟩⟩
  · simp [evalNode, evalT, hE, has, ASTNode.getType, ASTNode.getValue]
  · simp [evalNode, evalT, hE, hnone, ASTNode.getType, ASTNode.getValue]
  · simp [evalT, hc, String.append_assoc]
    congr 1
  · obtain ⟨u, hu⟩ := Option.isSome_iff_exists.mp hsome
    simp [envAssign, envAssignGo, hd, hu]
  · simp [envAssignGo, hd, hmiss, henc]
  · simp [envAssign, envAssignGo, hd, hmiss, henc]

/-- Witness for C4 at a concrete chain: assigning `x` inside a child
environment writes the enclosing (global) binding, yields the assigned
value, and assigning an unbound name fails with the state untouched. -/
theorem assignment_semantics_witness :
    evalNode 2 (.mk .BinaryOp "=" [.mk .Identifier "x" [], .mk .Number "4" []]) 1
      ⟨[⟨[("x", .num 1)], none⟩, ⟨[], some 0⟩], [], 0⟩
      = (.ok (.num 4), ⟨[⟨[("x", .num 4)], none⟩, ⟨[], some 0⟩], [], 0⟩)
    ∧ evalNode 2 (.mk .BinaryOp "=" [.mk .Identifier "y" [], .mk .Number "4" []]) 1
      ⟨[⟨[("x", .num 1)], none⟩, ⟨[], some 0⟩], [], 0⟩
      = (.exc (.rte "Undefined variable 'y'."),
         ⟨[⟨[("x", .num 1)], none⟩, ⟨[], some 0⟩], [], 0⟩) := by
  constructor
  · exact (assignment_semantics 1 1 ⟨[⟨[("x", .num 1)], none⟩, ⟨[], some 0⟩], [], 0⟩
      ⟨[⟨[("x", .num 1)], none⟩, ⟨[], some 0⟩], [], 0⟩ "x" (.mk .Number "4" []) (.num 4)
      rfl).1 [⟨[("x", .num 4)], none⟩, ⟨[], some 0⟩] rfl
  · exact (assignment_semantics 1 1 ⟨[⟨[("x", .num 1)], none⟩, ⟨[], some 0⟩], [], 0⟩
      ⟨[⟨[("x", .num 1)], none⟩, ⟨[], some 0⟩], [], 0⟩ "y" (.mk .Number "4" []) (.num 4)
      rfl).2.1 rfl

/-- C1 counterexample: evaluating `"a" + 1.5` yields `"a1.500000"` — the
non-integral operand is rendered by `std::to_string` in fixed six-decimal
notation, which is not the shortest decimal rendering of `1.5` (the claim's
print-formatting rule), since `"1.5"` denotes the same value and is shorter;
moreover `"a" + f` for a function value `f` raises `OperandsMustBeNumbers`
although one operand is a string. -/
theorem plus_concat_formatting_counterexample :
    (evalNode 5 (.mk .BinaryOp "+" [.mk .String "a" [], .mk .Number "1.5" []]) 0
        ⟨[⟨[], none⟩], [], 0⟩).1 = .ok (.str "a1.500000")
    ∧ decimalValQ "1.500000" = some (3/2 : ℚ)
    ∧ decimalValQ "1.5" = some (3/2 : ℚ)
    ∧ ¬ IsShortestDecimal "1.500000" (3/2 : ℚ)
    ∧ (evalNode 5 (.mk .BinaryOp "+" [.mk .String "a" [], .mk .Identifier "f" []]) 0
        ⟨[⟨[("f", .fn ⟨"f", [], .mk .Nil "nil" [], 0⟩)], none⟩], [], 0⟩).1
      = .exc (.err "OperandsMustBeNumbers" 70 "Operands must be numbers.") := by
  refine ⟨by with_unfolding_all rfl, by with_unfolding_all rfl, by with_unfolding_all rfl,
    fun h => ?_, by with_unfolding_all rfl⟩
  have h2 := h.2 "1.5" (by with_unfolding_all rfl)
  revert h2
  decide

/-- C1 (amended): for a binary `'+'` node whose operands evaluate to `la`
and `ra`, two numbers add; a string concatenates with a string, or with a
number rendered without `.0` when integral and in `std::to_string`'s fixed
six-decimal notation otherwise (`concatNumStr`), or with a boolean rendered
`true`/`false`, or with nil rendered `nil`; a string paired with a function
value, and every pair that is neither of the above, raises
`OperandsMustBeNumbers` (code 70, message `Operands must be numbers.`). -/
theorem plus_binaryOp_eval (f : Nat) (l r : ASTNode) (env : Nat)
    (st st1 st2 : EvalState) (la ra : Value)
    (hL : evalT f (.node l) env st = (.ok la, st1))
    (hR : evalT f (.node r) env st1 = (.ok ra, st2)) :
    (∀ x y, la = .num x → ra = .num y →
      evalNode (f+1) (.mk .BinaryOp "+" [l, r]) env st = (.ok (.num (x + y)), st2))
    ∧ (∀ a b, la = .str a → ra = .str b →
      evalNode (f+1) (.mk .BinaryOp "+" [l, r]) env st = (.ok (.str (a ++ b)), st2))
    ∧ (∀ a y, la = .str a → ra = .num y →
      evalNode (f+1) (.mk .BinaryOp "+" [l, r]) env st
        = (.ok (.str (a ++ concatNumStr y)), st2))
    ∧ (∀ a b, la = .str a → ra = .boolean b →
      evalNode (f+1) (.mk .BinaryOp "+" [l, r]) env st
        = (.ok (.str (a ++ (if b then "true" else "false"))), st2))
    ∧ (∀ a, la = .str a → ra = .nil →
      evalNode (f+1) (.mk .BinaryOp "+" [l, r]) env st = (.ok (.str (a ++ "nil")), st2))
    ∧ (∀ x b, la = .num x → ra = .str b →
      evalNode (f+1) (.mk .BinaryOp "+" [l, r]) env st
        = (.ok (.str (concatNumStr x ++ b)), st2))
    ∧ (∀ c b, la = .boolean c → ra = .str b →
      evalNode (f+1) (.mk .BinaryOp "+" [l, r]) env st
        = (.ok (.str ((if c then "true" else "false") ++ b)), st2))
    ∧ (∀ b, la = .nil → ra = .str b →
      evalNode (f+1) (.mk .BinaryOp "+" [l, r]) env st = (.ok (.str ("nil" ++ b)), st2))
    ∧ (∀ a g, la = .str a → ra = .fn g →
      evalNode (f+1) (.mk .BinaryOp "+" [l, r]) env st
        = (.exc (.err "OperandsMustBeNumbers" 70 "Operands must be numbers."), st2))
    ∧ (∀ g b, la = .fn g → ra = .str b →
      evalNode (f+1) (.mk .BinaryOp "+" [l, r]) env st
        = (.exc (.err "OperandsMustBeNumbers" 70 "Operands must be numbers."), st2))
    ∧ ((∀ a, la ≠ .str a) → (∀ b, ra ≠ .str b) → (∀ x y, ¬ (la = .num x ∧ ra = .num y)) →
      evalNode (f+1) (.mk .BinaryOp "+" [l, r]) env st
        = (.exc (.err "OperandsMustBeNumbers" 70 "Operands must be numbers."), st2)) := by
  refine ⟨fun x y h1 h2 => ?_, fun a b h1 h2 => ?_, fun a y h1 h2 => ?_,
    fun a b h1 h2 => ?_, fun a h1 h2 => ?_, fun x b h1 h2 => ?_, fun c b h1 h2 => ?_,
    fun b h1 h2 => ?_, fun a g h1 h2 => ?_, fun g b h1 h2 => ?_, fun hls hrs hnn => ?_⟩
  · subst h1; subst h2; simp [evalNode, evalT, hL, hR]
  · subst h1; subst h2; simp [evalNode, evalT, hL, hR]
  · subst h1; subst h2; simp [evalNode, evalT, hL, hR]
  · subst h1; subst h2; simp [evalNode, evalT, hL, hR]
  · subst h1; subst h2; simp [evalNode, evalT, hL, hR]
  · subst h1; subst h2; simp [evalNode, evalT, hL, hR]
  · subst h1; subst h2; simp [evalNode, evalT, hL, hR]
  · subst h1; subst h2; simp [evalNode, evalT, hL, hR]
  · subst h1; subst h2; simp [evalNode, evalT, hL, hR]
  · subst h1; subst h2; simp [evalNode, evalT, hL, hR]
  · cases la with
    | str a => exact absurd rfl (hls a)
    | num x =>
      cases ra with
      | str b => exact absurd rfl (hrs b)
      | num y => exact absurd ⟨rfl, rfl⟩ (hnn x y)
      | nil => simp [evalNode, evalT, hL, hR]
      | boolean b => simp [evalNode, evalT, hL, hR]
      | fn g => simp [evalNode, evalT, hL, hR]
    | nil =>
      cases ra with
      | str b => exact absurd rfl (hrs b)
      | num y => simp [evalNode, evalT, hL, hR]
      | nil => simp [evalNode, evalT, hL, hR]
      | boolean b => simp [evalNode, evalT, hL, hR]
      | fn g => simp [evalNode, evalT, hL, hR]
    | boolean c =>
      cases ra with
      | str b => exact absurd rfl (hrs b)
      | num y => simp [evalNode, evalT, hL, hR]
      | nil => simp [evalNode, evalT, hL, hR]
      | boolean b => simp [evalNode, evalT, hL, hR]
      | fn g => simp [evalNode, evalT, hL, hR]
    | fn g =>
      cases ra with
      | str b => exact absurd rfl (hrs b)
      | num y => simp [evalNode, evalT, hL, hR]
      | nil => simp [evalNode, evalT, hL, hR]
      | boolean b => simp [evalNode, evalT, hL, hR]
      | fn g2 => simp [evalNode, evalT, hL, hR]

/-- Witness for C1 (amended) at concrete inputs: `1 + 2` is `3`, and
`true + "!"` concatenates to `"true!"`. -/
theorem plus_binaryOp_eval_witness :
    evalNode 2 (.mk .BinaryOp "+" [.mk .Number "1" [], .mk .Number "2" []]) 0
      ⟨[⟨[], none⟩], [], 0⟩ = (.ok (.num 3), ⟨[⟨[], none⟩], [], 0⟩)
    ∧ evalNode 2 (.mk .BinaryOp "+" [.mk .Boolean "true" [], .mk .String "!" []]) 0
      ⟨[⟨[], none⟩], [], 0⟩ = (.ok (.str "true!"), ⟨[⟨[], none⟩], [], 0⟩) := by
  constructor
  · have h := (plus_binaryOp_eval 1 (.mk .Number "1" []) (.mk .Number "2" []) 0
      ⟨[⟨[], none⟩], [], 0⟩ ⟨[⟨[], none⟩], [], 0⟩ ⟨[⟨[], none⟩], [], 0⟩
      (.num 1) (.num 2) rfl rfl).1 1 2 rfl rfl
    norm_num at h
    exact h
  · have h := (plus_binaryOp_eval 1 (.mk .Boolean "true" []) (.mk .String "!" []) 0
      ⟨[⟨[], none⟩], [], 0⟩ ⟨[⟨[], none⟩], [], 0⟩ ⟨[⟨[], none⟩], [], 0⟩
      (.boolean true) (.str "!") rfl rfl).2.2.2.2.2.2.1 true "!" rfl rfl
    exact h

/-- Reading in range is plain list indexing. -/
theorem charAt_lt (s : List Char) (j : Nat) (h : j < s.length) : charAt s j = s[j] := by
  simp [charAt, List.getD_eq_getElem?_getD, List.getElem?_eq_getElem h]

/-- Reading at or past the length yields the NUL character. -/
theorem charAt_ge (s : List Char) (j : Nat) (h : s.length ≤ j) :
    charAt s j = Char.ofNat 0 := by
  simp [charAt, List.getD_eq_getElem?_getD, List.getElem?_eq_none h]

/-- A digit differs from any non-digit character. -/
theorem isDigit_ne (c x : Char) (hd : isDigit c = true) (hx : isDigit x = false) :
    c ≠ x :=
  fun h => by rw [h, hx] at hd; exact Bool.noConfusion hd

/-- A digit is not classified as a letter. -/
theorem isDigit_isLetter_false (c : Char) (hd : isDigit c = true) :
    isLetter c = false := by
  have h2 : c ≤ '9' := by
    have h := hd
    simp [isDigit, Bool.and_eq_true, decide_eq_true_eq] at h
    exact h.2
  have ha : ¬ ('a' ≤ c) := fun hle => absurd (le_trans hle h2) (by decide)
  have hA : ¬ ('A' ≤ c) := fun hle => absurd (le_trans hle h2) (by decide)
  have hu : c ≠ '_' := isDigit_ne c '_' hd (by decide)
  simp [isLetter, ha, hA, hu]

/-- The number-scanning loop never moves its index backwards. -/
theorem valorateNumberGo_ge (s : List Char) :
    ∀ (fuel j : Nat), j ≤ valorateNumberGo s fuel j := by
  intro fuel
  induction fuel with
  | zero => intro j; simp [valorateNumberGo]
  | succ n ih =>
    intro j
    simp only [valorateNumberGo]
    split
    · split
      · exact le_trans (by omega) (ih (j+1))
      · exact le_refl j
    · exact le_trans (by omega) (ih (j+1))

/-- Every character strictly inside the scanned number run is a digit or a
dot. -/
theorem valorateNumberGo_mem (s : List Char) :
    ∀ (fuel j : Nat), ∀ k, j ≤ k → k < valorateNumberGo s fuel j →
      (isDigit (charAt s k) = true ∨ charAt s k = '.') := by
  intro fuel
  induction fuel with
  | zero =>
    intro j k hjk hk
    simp [valorateNumberGo] at hk
    omega
  | succ n ih =>
    intro j k hjk hk
    simp only [valorateNumberGo] at hk
    by_cases hcond : j = s.length ∨ charAt s j = ' ' ∨ charAt s j = '\n'
        ∨ charAt s j = '\t' ∨ ¬ isDigit (charAt s j) = true
    · rw [if_pos hcond] at hk
      by_cases hdot : charAt s j = '.'
      · rw [if_pos hdot] at hk
        rcases Nat.eq_or_lt_of_le hjk with h | h
        · exact Or.inr (h ▸ hdot)
        · exact ih (j+1) k h hk
      · rw [if_neg hdot] at hk
        omega
    · rw [if_neg hcond] at hk
      push_neg at hcond
      rcases Nat.eq_or_lt_of_le hjk with h | h
      · exact Or.inl (by subst h; simpa using hcond.2.2.2.2)
      · exact ih (j+1) k h hk

/-- The scanned number run stops at the input's end or at a character that is
neither a digit nor a dot (given enough fuel). -/
theorem valorateNumberGo_stop (s : List Char) :
    ∀ (fuel j : Nat), s.length ≤ j + fuel → j ≤ s.length →
      (valorateNumberGo s fuel j = s.length
       ∨ (isDigit (charAt s (valorateNumberGo s fuel j)) = false
          ∧ charAt s (valorateNumberGo s fuel j) ≠ '.')) := by
  intro fuel
  induction fuel with
  | zero =>
    intro j h1 h2
    have : j = s.length := by omega
    simp [valorateNumberGo, this]
  | succ n ih =>
    intro j h1 h2
    simp only [valorateNumberGo]
    by_cases hcond : j = s.length ∨ charAt s j = ' ' ∨ charAt s j = '\n'
        ∨ charAt s j = '\t' ∨ ¬ isDigit (charAt s j) = true
    · rw [if_pos hcond]
      by_cases hdot : charAt s j = '.'
      · rw [if_pos hdot]
        have hjlen : j ≠ s.length := by
          intro he
          rw [charAt_ge s j (le_of_eq he.symm)] at hdot
          exact absurd hdot (by decide)
        exact ih (j+1) (by omega) (by omega)
      · rw [if_neg hdot]
        rcases hcond with he | hsp | hnl | htb | hnd
        · exact Or.inl he
        · exact Or.inr ⟨by rw [hsp]; decide, fun h => absurd (hsp ▸ h) (by decide)⟩
        · exact Or.inr ⟨by rw [hnl]; decide, fun h => absurd (hnl ▸ h) (by decide)⟩
        · exact Or.inr ⟨by rw [htb]; decide, fun h => absurd (htb ▸ h) (by decide)⟩
        · exact Or.inr ⟨Bool.not_eq_true _ ▸ (by simpa using hnd), hdot⟩
    · rw [if_neg hcond]
      push_neg at hcond
      exact ih (j+1) (by omega) (by omega)

/-- C7 counterexample: the five-character input `1.2.3` lexes to exactly one
NUMBER token (plus the EOF sentinel), with the whole run `1.2.3` — two dots —
as its verbatim lexeme and `std::stod`'s parse `1.2` as payload, so a run
such as `1.2.3` is a single number token, contradicting "at most one interior
`.`". -/
theorem number_lexing_counterexample :
    (getTokens "1.2.3" initLexState).1
      = ([⟨.NUMBER, "1.2.3", .num (6/5 : ℚ)⟩, ⟨.EOF_OF_FILE, "", .null⟩], 0)
    ∧ ("1.2.3".data.count '.') = 2 := by
  exact ⟨by with_unfolding_all rfl, by decide⟩

/-- C7 (amended): whenever a digit starts a lexeme, one step of the lexer
emits a single NUMBER token whose lexeme is the maximal run of digits and `.`
characters starting there, retained verbatim, with `std::stod`'s parse of the
lexeme as the literal payload. -/
theorem number_lexing_maximal_run (s : List Char) (i : Nat) (st : LexState)
    (hi : i < s.length) (hd : isDigit (charAt s i) = true) :
    (lexStep s i st
      = (numberRunEnd s i - 1,
         { st with tokens := st.tokens ++
            [⟨.NUMBER, String.mk ((s.drop i).take (numberRunEnd s i - i)),
              .num (stodQ (String.mk ((s.drop i).take (numberRunEnd s i - i))))⟩] }))
    ∧ (∀ k, i ≤ k → k < numberRunEnd s i →
        (isDigit (charAt s k) = true ∨ charAt s k = '.'))
    ∧ (numberRunEnd s i = s.length
       ∨ (isDigit (charAt s (numberRunEnd s i)) = false
          ∧ charAt s (numberRunEnd s i) ≠ '.'))
    ∧ i < numberRunEnd s i := by
  have n01 : charAt s i ≠ '+' := isDigit_ne _ _ hd (by decide)
  have n02 : charAt s i ≠ '-' := isDigit_ne _ _ hd (by decide)
  have n03 : charAt s i ≠ '*' := isDigit_ne _ _ hd (by decide)
  have n04 : charAt s i ≠ '/' := isDigit_ne _ _ hd (by decide)
  have n05 : charAt s i ≠ '%' := isDigit_ne _ _ hd (by decide)
  have n06 : charAt s i ≠ '=' := isDigit_ne _ _ hd (by decide)
  have n07 : charAt s i ≠ '"' := isDigit_ne _ _ hd (by decide)
  have n08 : charAt s i ≠ ';' := isDigit_ne _ _ hd (by decide)
  have n09 : charAt s i ≠ ',' := isDigit_ne _ _ hd (by decide)
  have n10 : charAt s i ≠ '.' := isDigit_ne _ _ hd (by decide)
  have n11 : charAt s i ≠ ':' := isDigit_ne _ _ hd (by decide)
  have n12 : charAt s i ≠ '(' := isDigit_ne _ _ hd (by decide)
  have n13 : charAt s i ≠ ')' := isDigit_ne _ _ hd (by decide)
  have n14 : charAt s i ≠ Char.ofNat 123 := isDigit_ne _ _ hd (by decide)
  have n15 : charAt s i ≠ Char.ofNat 125 := isDigit_ne _ _ hd (by decide)
  have n16 : charAt s i ≠ '[' := isDigit_ne _ _ hd (by decide)
  have n17 : charAt s i ≠ ']' := isDigit_ne _ _ hd (by decide)
  have n18 : charAt s i ≠ '!' := isDigit_ne _ _ hd (by decide)
  have n19 : charAt s i ≠ '>' := isDigit_ne _ _ hd (by decide)
  have n20 : charAt s i ≠ '<' := isDigit_ne _ _ hd (by decide)
  have n21 : charAt s i ≠ '\n' := isDigit_ne _ _ hd (by decide)
  have n22 : charAt s i ≠ ' ' := isDigit_ne _ _ hd (by decide)
  have n23 : charAt s i ≠ '\t' := isDigit_ne _ _ hd (by decide)
  have nl : isLetter (charAt s i) = false := isDigit_isLetter_false _ hd
  refine ⟨?_, ?_, ?_, ?_⟩
  · simp [lexStep, n01, n02, n03, n04, n05, n06, n07, n08, n09, n10, n11, n12, n13,
      n14, n15, n16, n17, n18, n19, n20, n21, n22, n23, nl, hd,
      valorateNumberRes, numberRunEnd]
  · intro k hik hk
    rcases Nat.eq_or_lt_of_le hik with h | h
    · exact Or.inl (h ▸ hd)
    · exact valorateNumberGo_mem s (s.length + 1) (i+1) k h hk
  · exact valorateNumberGo_stop s (s.length + 1) (i+1) (by omega) (by omega)
  · exact lt_of_lt_of_le (Nat.lt_succ_self i) (valorateNumberGo_ge s (s.length + 1) (i+1))

/-- Witness for C7 (amended) on the concrete input `12 `: the step at index 0
emits the single NUMBER token `12`. -/
theorem number_lexing_maximal_run_witness :
    lexStep "12 ".data 0 initLexState
      = (1, { initLexState with tokens := [⟨.NUMBER, "12", .num 12⟩] })
    ∧ (0 : Nat) < numberRunEnd "12 ".data 0 := by
  constructor
  · have h := (number_lexing_maximal_run "12 ".data 0 initLexState (by decide)
      (by decide)).1
    rw [h]
    with_unfolding_all rfl
  · exact (number_lexing_maximal_run "12 ".data 0 initLexState (by decide)
      (by decide)).2.2.2

/-- C8: the code violates the claim — `Tokenizer::getTokens` resets the token
buffer and the exit code but not the line counter, so a second lex pass over
the same input reports shifted `[line N]` diagnostics: on `"\n@"` the first
pass reports line 2 and leaves the counter at 2, and the second pass reports
line 3, while tokens and exit code are reproduced. -/
theorem lexer_line_not_reset :
    (getTokens "\n@" initLexState).2.line = 2
    ∧ (getTokens "\n@" initLexState).2.stderrLines
        = ["[line 2] Error: Unexpected character: @"]
    ∧ (getTokens "\n@" (getTokens "\n@" initLexState).2).2.stderrLines
        = ["[line 2] Error: Unexpected character: @",
           "[line 3] Error: Unexpected character: @"]
    ∧ (getTokens "\n@" (getTokens "\n@" initLexState).2).1
        = (getTokens "\n@" initLexState).1 := by
  refine ⟨by decide, by decide, by decide, by decide⟩

/-- The string-literal scan, when no closing quote follows, consumes the rest
of the input, counting its newlines into the line counter. -/
theorem scanStringGo_no_quote (s : List Char) :
    ∀ (fuel j line : Nat) (acc : List Char),
      s.length ≤ j + fuel → j ≤ s.length →
      (∀ k, k < s.length → j ≤ k → charAt s k ≠ '"') →
      scanStringGo s fuel j line acc
        = (s.length, line + (s.drop j).count '\n', acc ++ s.drop j) := by
  intro fuel
  induction fuel with
  | zero =>
    intro j line acc h1 h2 _
    have hj : j = s.length := by omega
    simp [scanStringGo, hj]
  | succ n ih =>
    intro j line acc h1 h2 hnq
    simp only [scanStringGo]
    by_cases hj : j < s.length
    · rw [if_pos hj, if_neg (hnq j hj (le_refl j))]
      rw [ih (j+1) _ _ (by omega) (by omega) (fun k hk hjk => hnq k hk (by omega))]
      have hdrop : s.drop j = s[j] :: s.drop (j+1) := List.drop_eq_getElem_cons hj
      rw [charAt_lt s j hj, hdrop, List.count_cons]
      simp only [Prod.mk.injEq, List.append_assoc, List.singleton_append,
        true_and, and_true, eq_self_iff_true]
      by_cases hnl : s[j] = '\n'
      · simp only [if_pos hnl, hnl, beq_self_eq_true, if_true]
        omega
      · simp only [if_neg hnl, beq_iff_eq, hnl, if_false]
        omega
    · rw [if_neg hj]
      have hj2 : j = s.length := by omega
      simp [hj2]

/-- C9: reaching the end of input while scanning a string literal writes
`[line N] Error: Unterminated string.` to standard error (where `N` counts
the newlines inside the unterminated run), sets the exit code to 65, emits no
STRING token for the run, and the pass still ends with only the EOF sentinel
appended. -/
theorem unterminated_string_lexing (s : List Char) (i g : Nat) (st : LexState)
    (hi : i < s.length) (hq : charAt s i = '"')
    (hnq : ∀ k, k < s.length → i < k → charAt s k ≠ '"') :
    lexLoop s (g + 2) i st =
      { tokens := st.tokens ++ [⟨.EOF_OF_FILE, "", .null⟩],
        line := st.line + (s.drop (i+1)).count '\n',
        exitCode := 65,
        stderrLines := st.stderrLines ++
          ["[line " ++ toString (st.line + (s.drop (i+1)).count '\n')
            ++ "] Error: Unterminated string."] } := by
  have hscan := scanStringGo_no_quote s (s.length + 1) (i+1) st.line []
    (by omega) (by omega) (fun k hk hik => hnq k hk (by omega))
  have hq1 : charAt s i ≠ '+' := by rw [hq]; decide
  have hq2 : charAt s i ≠ '-' := by rw [hq]; decide
  have hq3 : charAt s i ≠ '*' := by rw [hq]; decide
  have hq4 : charAt s i ≠ '/' := by rw [hq]; decide
  have hq5 : charAt s i ≠ '%' := by rw [hq]; decide
  have hq6 : charAt s i ≠ '=' := by rw [hq]; decide
  have hstep : lexStep s i st
      = (s.length,
         { st with
             line := st.line + (s.drop (i+1)).count '\n',
             exitCode := 65,
             stderrLines := st.stderrLines ++
               ["[line " ++ toString (st.line + (s.drop (i+1)).count '\n')
                 ++ "] Error: Unterminated string."] }) := by
    simp [lexStep, hq1, hq2, hq3, hq4, hq5, hq6, hq, hscan]
  show lexLoop s (g + 1 + 1) i st = _
  simp only [lexLoop, if_pos hi, hstep]
  have hterm : ¬ (s.length + 1 < s.length) := by omega
  simp only [lexLoop, if_neg hterm]

/-- Witness for C9 on the concrete input `"ab`: the pass ends with exit code
65, the unterminated-string diagnostic, and only the EOF token. -/
theorem unterminated_string_lexing_witness :
    lexLoop "\"ab".data 2 0 initLexState =
      { tokens := [⟨.EOF_OF_FILE, "", .null⟩],
        line := 1,
        exitCode := 65,
        stderrLines := ["[line 1] Error: Unterminated string."] } := by
  have h := unterminated_string_lexing "\"ab".data 0 0 initLexState
    (by decide) (by decide) (by decide)
  rw [h]
  decide

/-- Body phase of the `for` statement: with `')'` at `p3` and the body
parsing to `B`, a bare `VarDecl` body is rejected and any other body yields
the desugared loop. -/
theorem forBody_phase (g : Nat) (ts : List Token) (p3 p4 : Nat)
    (initOpt incOpt : Option ASTNode) (C B : ASTNode)
    (hRP : p3 < ts.length) (hRP2 : (tokAt ts p3).type = TokenType.R_PAREN)
    (hBody : parseT g PTask.stmt ts (p3+1) = .node B p4) :
    (B.getType ≠ NodeType.VarDecl →
      parseT (g+1) (.forBody initOpt C incOpt) ts p3
        = .node (forDesugarSpec initOpt C incOpt B) p4)
    ∧ (B.getType = NodeType.VarDecl →
      parseT (g+1) (.forBody initOpt C incOpt) ts p3
        = .perr "ParseError" 65 "Error: Expect block after for clauses.\n") := by
  have hn : ¬ (ts.length ≤ p3 ∨ (tokAt ts p3).type ≠ TokenType.R_PAREN) := by
    push_neg
    exact ⟨by omega, hRP2⟩
  refine ⟨fun hnv => ?_, fun hv => ?_⟩
  · conv_lhs => rw [parseT.eq_27]
    rw [if_neg hn, hBody]
    simp only []
    rw [if_neg hnv]
    cases initOpt <;> cases incOpt <;> rfl
  · conv_lhs => rw [parseT.eq_27]
    rw [if_neg hn, hBody]
    simp only []
    rw [if_pos hv]

/-- Increment phase of the `for` statement: either an increment expression is
parsed or `')'` is already at hand; both continue to the body phase. -/
theorem forInc_phase (g : Nat) (ts : List Token) (p2 p3 : Nat)
    (initOpt incOpt : Option ASTNode) (C : ASTNode)
    (hInc : (∃ U, incOpt = some U ∧ (tokAt ts p2).type ≠ TokenType.R_PAREN
        ∧ parseT (g+1) PTask.expr ts p2 = .node U p3)
      ∨ (incOpt = none ∧ (tokAt ts p2).type = TokenType.R_PAREN ∧ p3 = p2)) :
    parseT (g+2) (.forInc initOpt C) ts p2
      = parseT (g+1) (.forBody initOpt C incOpt) ts p3 := by
  rcases hInc with ⟨U, hU, hne, hp⟩ | ⟨hU, heq, hp⟩
  · subst hU
    conv_lhs => rw [parseT.eq_26]
    rw [if_pos hne, hp]
  · subst hU; subst hp
    conv_lhs => rw [parseT.eq_26]
    rw [if_neg (fun hcc => hcc heq)]

/-- Condition phase of the `for` statement: either a condition expression
followed by `';'` is parsed, or the condition defaults to the boolean literal
`true`; both continue to the increment phase. -/
theorem forCond_phase (g : Nat) (ts : List Token) (p1 p2 : Nat)
    (initOpt : Option ASTNode) (C : ASTNode)
    (hCond : ((tokAt ts p1).type ≠ TokenType.SEMICOLON
        ∧ ∃ q, parseT (g+3) PTask.expr ts p1 = .node C q
           ∧ q < ts.length ∧ (tokAt ts q).type = TokenType.SEMICOLON ∧ p2 = q + 1)
      ∨ ((tokAt ts p1).type = TokenType.SEMICOLON ∧ p1 < ts.length
        ∧ C = .mk .Boolean "true" [] ∧ p2 = p1 + 1)) :
    parseT (g+4) (.forCond initOpt) ts p1
      = parseT (g+2) (.forInc initOpt C) ts p2 := by
  rcases hCond with ⟨hne, q, hp, hq1, hq2, hp2⟩ | ⟨heq, hlt, hC, hp2⟩
  · subst hp2
    have hn : ¬ (ts.length ≤ q ∨ (tokAt ts q).type ≠ TokenType.SEMICOLON) := by
      push_neg
      exact ⟨by omega, hq2⟩
    conv_lhs => rw [parseT.eq_24]
    rw [if_pos hne, hp]
    simp only []
    conv_lhs => rw [parseT.eq_25]
    rw [if_neg hn]
  · subst hC; subst hp2
    have hn : ¬ (ts.length ≤ p1 ∨ (tokAt ts p1).type ≠ TokenType.SEMICOLON) := by
      push_neg
      exact ⟨by omega, heq⟩
    conv_lhs => rw [parseT.eq_24]
    rw [if_neg (fun hcc => hcc heq)]
    conv_lhs => rw [parseT.eq_25]
    rw [if_neg hn]

/-- Initializer phase of the `for` statement: a `var` declaration, an
expression statement, or a bare `';'`; all continue to the condition phase
with the initializer recorded. -/
theorem forInit_phase (g : Nat) (ts : List Token) (pos p1 : Nat)
    (initOpt : Option ASTNode)
    (hPos : pos < ts.length)
    (hFor : (tokAt ts pos).type = TokenType.FOR)
    (hLP : pos + 1 < ts.length)
    (hLP2 : (tokAt ts (pos+1)).type = TokenType.L_PAREN)
    (hInit : (∃ I, initOpt = some I
        ∧ (((tokAt ts (pos+2)).type = TokenType.VAR
             ∧ parseT (g+4) PTask.stmt ts (pos+2) = .node I p1)
           ∨ ((tokAt ts (pos+2)).type ≠ TokenType.VAR
             ∧ (tokAt ts (pos+2)).type ≠ TokenType.SEMICOLON
             ∧ ∃ q, parseT (g+4) PTask.expr ts (pos+2) = .node I q
                ∧ q < ts.length ∧ (tokAt ts q).type = TokenType.SEMICOLON ∧ p1 = q + 1)))
      ∨ (initOpt = none ∧ (tokAt ts (pos+2)).type = TokenType.SEMICOLON ∧ p1 = pos + 3)) :
    parseT (g+5) PTask.stmt ts pos = parseT (g+4) (.forCond initOpt) ts p1 := by
  have hnl : ¬ (ts.length ≤ pos + 1 ∨ (tokAt ts (pos+1)).type ≠ TokenType.L_PAREN) := by
    push_neg
    exact ⟨by omega, hLP2⟩
  rcases hInit with ⟨I, hI, ⟨hvar, hp⟩ | ⟨hnv, hns, q, hp, hq1, hq2, hp1⟩⟩ | ⟨hI, hsemi, hp1⟩
  · subst hI
    conv_lhs => rw [parseT.eq_31]
    simp only [hFor, hPos, hvar, reduceCtorEq, and_false, and_true, if_false, if_true,
      if_neg hnl, if_pos trivial, hp]
  · subst hI; subst hp1
    have hn : ¬ (ts.length ≤ q ∨ (tokAt ts q).type ≠ TokenType.SEMICOLON) := by
      push_neg
      exact ⟨by omega, hq2⟩
    conv_lhs => rw [parseT.eq_31]
    simp only [hFor, hPos, reduceCtorEq, and_false, and_true, if_false, if_true,
      if_neg hnl, if_neg hnv, if_pos hns, hp, if_neg hn]
  · subst hI; subst hp1
    conv_lhs => rw [parseT.eq_31]
    simp only [hFor, hPos, hsemi, reduceCtorEq, and_false, and_true, if_false, if_true,
      if_neg hnl, ne_eq, not_true, ite_false]

/-- C6: a `for` statement that parses successfully produces no dedicated
loop node (the AST has no `ForStmt` kind at all) but the desugared form —
when the initializer `I` is present, a block holding `I` followed by a
`while` whose condition is `C` (the boolean literal `true` when omitted) and
whose body is `B` with the increment `U` appended as a trailing statement in
a block when present; just that `while` when `I` is absent — and a bare
`VarDecl` body is rejected with `Error: Expect block after for clauses.`. -/
theorem forStmt_desugar (g : Nat) (ts : List Token) (pos : Nat)
    (C B : ASTNode) (initOpt incOpt : Option ASTNode) (p1 p2 p3 p4 : Nat)
    (hPos : pos < ts.length)
    (hFor : (tokAt ts pos).type = TokenType.FOR)
    (hLP : pos + 1 < ts.length)
    (hLP2 : (tokAt ts (pos+1)).type = TokenType.L_PAREN)
    (hInit : (∃ I, initOpt = some I
        ∧ (((tokAt ts (pos+2)).type = TokenType.VAR
             ∧ parseT (g+4) PTask.stmt ts (pos+2) = .node I p1)
           ∨ ((tokAt ts (pos+2)).type ≠ TokenType.VAR
             ∧ (tokAt ts (pos+2)).type ≠ TokenType.SEMICOLON
             ∧ ∃ q, parseT (g+4) PTask.expr ts (pos+2) = .node I q
                ∧ q < ts.length ∧ (tokAt ts q).type = TokenType.SEMICOLON ∧ p1 = q + 1)))
      ∨ (initOpt = none ∧ (tokAt ts (pos+2)).type = TokenType.SEMICOLON ∧ p1 = pos + 3))
    (hCond : ((tokAt ts p1).type ≠ TokenType.SEMICOLON
        ∧ ∃ q, parseT (g+3) PTask.expr ts p1 = .node C q
           ∧ q < ts.length ∧ (tokAt ts q).type = TokenType.SEMICOLON ∧ p2 = q + 1)
      ∨ ((tokAt ts p1).type = TokenType.SEMICOLON ∧ p1 < ts.length
        ∧ C = .mk .Boolean "true" [] ∧ p2 = p1 + 1))
    (hInc : (∃ U, incOpt = some U ∧ (tokAt ts p2).type ≠ TokenType.R_PAREN
        ∧ parseT (g+1) PTask.expr ts p2 = .node U p3)
      ∨ (incOpt = none ∧ (tokAt ts p2).type = TokenType.R_PAREN ∧ p3 = p2))
    (hRP : p3 < ts.length)
    (hRP2 : (tokAt ts p3).type = TokenType.R_PAREN)
    (hBody : parseT g PTask.stmt ts (p3+1) = .node B p4) :
    (B.getType ≠ NodeType.VarDecl →
      parseT (g+5) PTask.stmt ts pos = .node (forDesugarSpec initOpt C incOpt B) p4)
    ∧ (B.getType = NodeType.VarDecl →
      parseT (g+5) PTask.stmt ts pos
        = .perr "ParseError" 65 "Error: Expect block after for clauses.\n") := by
  have h1 := forInit_phase g ts pos p1 initOpt hPos hFor hLP hLP2 hInit
  have h2 := forCond_phase g ts p1 p2 initOpt C hCond
  have h3 := forInc_phase g ts p2 p3 initOpt incOpt C hInc
  have h4 := forBody_phase g ts p3 p4 initOpt incOpt C B hRP hRP2 hBody
  exact ⟨fun hnv => by rw [h1, h2, h3, h4.1 hnv],
         fun hv => by rw [h1, h2, h3, h4.2 hv]⟩

/-- Witness for C6 on the token sequence of
`for (var i = 0; i < 2; i = i + 1) {}`: the statement parses to the block
holding the declaration followed by the `while` loop whose body block ends
with the increment. -/
theorem forStmt_desugar_witness :
    parseT 25 PTask.stmt forWitnessTokens 0
      = .node
          (forDesugarSpec
            (some (.mk .VarDecl "i" [.mk .Number "0" []]))
            (.mk .BinaryOp "<" [.mk .Identifier "i" [], .mk .Number "2" []])
            (some (.mk .BinaryOp "="
              [.mk .Identifier "i" [],
               .mk .BinaryOp "+" [.mk .Identifier "i" [], .mk .Number "1" []]]))
            (.mk .Program "block" []))
          19 :=
  (forStmt_desugar 20 forWitnessTokens 0
    (.mk .BinaryOp "<" [.mk .Identifier "i" [], .mk .Number "2" []])
    (.mk .Program "block" [])
    (some (.mk .VarDecl "i" [.mk .Number "0" []]))
    (some (.mk .BinaryOp "="
      [.mk .Identifier "i" [],
       .mk .BinaryOp "+" [.mk .Identifier "i" [], .mk .Number "1" []]]))
    7 11 16 19
    (by decide) (by decide) (by decide) (by decide)
    (Or.inl ⟨.mk .VarDecl "i" [.mk .Number "0" []], rfl,
      Or.inl ⟨by decide, by with_unfolding_all rfl⟩⟩)
    (Or.inl ⟨by decide, 10, by with_unfolding_all rfl, by decide, by decide, rfl⟩)
    (Or.inl ⟨.mk .BinaryOp "="
      [.mk .Identifier "i" [],
       .mk .BinaryOp "+" [.mk .Identifier "i" [], .mk .Number "1" []]], rfl,
      by decide, by with_unfolding_all rfl⟩)
    (by decide) (by decide) (by with_unfolding_all rfl)).1 (by decide)

end Setker
